import Mathlib

/-!
# libzipfs: the combined-file footer validator and the splitter

A shallow embedding of `splitter.go` (`ReadFooter`, `DoSplitOutExeAndZip`,
`ReifyFooterAndDoInexpensiveChecks`) together with the properties of the
footer validation and of the split that the specification states.

Conventions of the embedding:
* a byte is a `Fin 256`, a byte slice a `List Byte`;
* a Go `int64` is an `Int`; the single `int64` addition of the source is
  wrapped explicitly by `wrapInt64`;
* a Go `error` is a value of `SplitError` (one constructor per message of the
  source, carrying the values the message is formatted from), `nil` is `none`;
* the file system is explicit state (`FileSys`), an open `*os.File` is a path
  with a read position (`File`), a nil pointer is `none`;
* a function that can panic returns an `Outcome`.
-/

namespace Libzipfs

/-- One octet. -/
abbrev Byte := Fin 256

/-- The footer occupies the last 256 bytes of a combined file
(`LIBZIPFS_FOOTER_LEN`, see the package comment of `splitter.go`). -/
def LIBZIPFS_FOOTER_LEN : Nat := 256

/-- A 64-byte digest: the type of `Footer.FooterBlake2Checksum` and of the value
returned by `GetFooterChecksum`; the source indexes both at `0 ≤ i < 64`. -/
abbrev Blake2Sum := { l : List Byte // l.length = 64 }

/-- Two's-complement wrap-around of an exact integer into the `int64` range. -/
def wrapInt64 (x : Int) : Int := (x + 2 ^ 63) % 2 ^ 64 - 2 ^ 63

/-- The range of a Go `int64`. -/
def IsInt64 (x : Int) : Prop := -(2 ^ 63) ≤ x ∧ x < 2 ^ 63

instance (x : Int) : Decidable (IsInt64 x) := by
  unfold IsInt64; infer_instance

/-- Modelled from the spec: the declaration of `Footer` is not among the sources.
The fields are the ones `splitter.go` reads; `Other` holds the remaining fields
of the record, which `splitter.go` never touches, as raw bytes. -/
structure Footer where
  MagicFooterNumber1 : List Byte
  ExecutableLengthBytes : Int
  ZipfileLengthBytes : Int
  FooterBlake2Checksum : Blake2Sum
  MagicFooterNumber2 : List Byte
  Other : List Byte
  deriving DecidableEq

/-- Modelled from the spec: the declaration of `CombinerConfig` is not among the
sources; these are the four fields `DoSplitOutExeAndZip` reads. -/
structure CombinerConfig where
  OutputPath : String
  ExecutablePath : String
  ZipfilePath : String
  Split : Bool
  deriving DecidableEq

/-- The `error` values built in `splitter.go`, one constructor per `fmt.Errorf`
call, with the arguments of the format string; `invalidHandle` is `os.ErrInvalid`
(any method of a nil `*os.File`), `eof` is `io.EOF`, `createFailed` the error of
a failed `os.Create`, `verifyFailed` an error of `VerifyExeZipChecksums`. -/
inductive SplitError where
  | statFailed (path : String)
  | tooSmall (path : String) (size : Int) (footerLen : Nat)
  | openFailed (path : String)
  | readFailed (path : String)
  | shortRead (path : String) (footerStartOffset : Int) (n : Nat)
  | magic1NotFound
  | magic2NotFound
  | footerChecksum (path : String) (i : Nat) (footerStartOffset : Int)
      (computed stored : Blake2Sum)
  | sizeMismatch (footerStartOffset zipLen exeLen sumFirstTwo : Int)
  | splitFlagNotSet (cfg : CombinerConfig)
  | bytesDiffer (i : Nat)
  | invalidHandle
  | eof
  | createFailed (path : String)
  | exeStartOffsetNonzero (exeStartOffset : Int)
  | verifyFailed (what : String)
  deriving DecidableEq

/-- The state of the file system: `data p` is the content of the file at `p`
(`none`: `os.Stat` fails), `canOpen`, `canRead` and `canCreate` say whether
`os.Open`, `Read` on the opened file and `os.Create` succeed at `p`. -/
structure FileSys where
  data : String → Option (List Byte)
  canOpen : String → Bool
  canRead : String → Bool
  canCreate : String → Bool

/-- An open `*os.File`: the path it was opened at and its current offset. -/
structure File where
  path : String
  pos : Nat
  deriving DecidableEq

/-- The parts of the package that `splitter.go` uses and that are not among the
sources, taken as parameters: the two magic byte strings, the footer decoder
`Footer.FromBytes`, the footer digest `Footer.GetFooterChecksum`, and the
post-split verification `Footer.VerifyExeZipChecksums`, which reads the two files
just written and returns an error or nil. -/
structure Codec where
  MAGIC1 : List Byte
  MAGIC2 : List Byte
  FromBytes : List Byte → Footer
  GetFooterChecksum : Footer → Blake2Sum
  VerifyExeZipChecksums : Footer → CombinerConfig → FileSys → Option SplitError

/-- Index of the first position `i < n` (counted from `idx`) at which the two
slices do not hold the same byte. -/
def firstDiff : List Byte → List Byte → Nat → Nat → Option Nat
  | _, _, 0, _ => none
  | x :: a, y :: b, n + 1, idx => if x = y then firstDiff a b n (idx + 1) else some idx
  | _, _, _ + 1, idx => some idx

/-- Modelled from the spec: `compareByteSlices` is a helper of the package that is
not among the sources. It compares the first `n` bytes of `a` and `b` and returns
`(-1, nil)` when they agree (as `offset_test.go` expects), otherwise the index of
the first difference and a non-nil error. -/
def compareByteSlices (a b : List Byte) (n : Nat) : Int × Option SplitError :=
  match firstDiff a b n 0 with
  | none => (-1, none)
  | some i => (i, some (.bytesDiffer i))

/-- The function `ReifyFooterAndDoInexpensiveChecks` of `splitter.go`: decode, then check the
leading magic, the trailing magic, the 64 checksum bytes, and the size sum. -/
def ReifyFooterAndDoInexpensiveChecks (c : Codec) (by_ : List Byte) (combinedPath : String)
    (footerStartOffset : Int) : Option Footer × Option SplitError :=
  let foot := c.FromBytes by_
  if (compareByteSlices (foot.MagicFooterNumber1.take c.MAGIC1.length) c.MAGIC1
      c.MAGIC1.length).2 ≠ none then
    (none, some .magic1NotFound)
  else if (compareByteSlices (foot.MagicFooterNumber2.take c.MAGIC2.length) c.MAGIC2
      c.MAGIC2.length).2 ≠ none then
    (none, some .magic2NotFound)
  else
    let chk := c.GetFooterChecksum foot
    match firstDiff chk.val foot.FooterBlake2Checksum.val 64 0 with
    | some i =>
      (none, some (.footerChecksum combinedPath i footerStartOffset chk
        foot.FooterBlake2Checksum))
    | none =>
      let sumFirstTwo := wrapInt64 (foot.ZipfileLengthBytes + foot.ExecutableLengthBytes)
      if footerStartOffset ≠ sumFirstTwo then
        (none, some (.sizeMismatch footerStartOffset foot.ZipfileLengthBytes
          foot.ExecutableLengthBytes sumFirstTwo))
      else
        (some foot, none)

/-- The four named results of `ReadFooter`. -/
structure ReadFooterResult where
  footerStartOffset : Int
  ft : Option Footer
  comb : Option File
  err : Option SplitError
  deriving DecidableEq

/-- The function `ReadFooter` of `splitter.go`: stat, size check, open, seek to 256 bytes
before the end, read 256 bytes, validate. On a regular file that was opened the
seek succeeds and returns `size - 256`. -/
def ReadFooter (c : Codec) (fs : FileSys) (combinedPath : String) : ReadFooterResult :=
  match fs.data combinedPath with
  | none => ⟨-1, none, none, some (.statFailed combinedPath)⟩
  | some bytes =>
    let size : Int := bytes.length
    if size < LIBZIPFS_FOOTER_LEN then
      ⟨-1, none, none, some (.tooSmall combinedPath size LIBZIPFS_FOOTER_LEN)⟩
    else if fs.canOpen combinedPath = false then
      ⟨-1, none, none, some (.openFailed combinedPath)⟩
    else
      let footerStartOffset : Int := size - LIBZIPFS_FOOTER_LEN
      if fs.canRead combinedPath = false then
        ⟨-1, none, none, some (.readFailed combinedPath)⟩
      else
        let by_ := (bytes.drop footerStartOffset.toNat).take LIBZIPFS_FOOTER_LEN
        let n := by_.length
        if n ≠ LIBZIPFS_FOOTER_LEN then
          ⟨-1, none, none, some (.shortRead combinedPath footerStartOffset n)⟩
        else
          match ReifyFooterAndDoInexpensiveChecks c by_ combinedPath footerStartOffset with
          | (_, some err) => ⟨-1, none, none, some err⟩
          | (foot, none) =>
            ⟨footerStartOffset, foot, some ⟨combinedPath, footerStartOffset.toNat + n⟩, none⟩

/-- What a call ends with: it returns a value, or it panics. -/
inductive Outcome (α : Type) where
  | ret (a : α)
  | panic (e : Option SplitError)
  deriving DecidableEq

/-- Replace the content of the file at `p`. -/
def FileSys.write (fs : FileSys) (p : String) (bytes : List Byte) : FileSys :=
  { fs with data := fun q => if q = p then some bytes else fs.data q }

/-- The call `os.Create`: create the file at `p`, or truncate it if it exists. -/
def osCreate (fs : FileSys) (p : String) : Except SplitError FileSys :=
  if fs.canCreate p = true then .ok (fs.write p []) else .error (.createFailed p)

/-- The call `Seek(0, 0)` on a `*os.File`: a nil receiver yields `os.ErrInvalid`, an open
file is repositioned at offset 0, which is the offset returned. -/
def seekStart (comb : Option File) : Except SplitError (File × Int) :=
  match comb with
  | none => .error .invalidHandle
  | some f => .ok ({ f with pos := 0 }, 0)

/-- The call `io.CopyN(dst, src, n)` of the Go library, `Copy(dst, LimitReader(src, n))`:
at most `n` bytes are taken from `src` at its offset (none when `n ≤ 0`) and
appended to the file at `dst`; then `written == n` gives `(n, nil)`,
`written < n` gives `io.EOF`, and otherwise `(written, nil)`. -/
def CopyN (fs : FileSys) (dst : String) (src : File) (n : Int) :
    FileSys × File × Int × Option SplitError :=
  let avail := ((fs.data src.path).getD []).drop src.pos
  let chunk := avail.take n.toNat
  let fs1 := fs.write dst ((fs.data dst).getD [] ++ chunk)
  let src1 : File := { src with pos := src.pos + chunk.length }
  let written : Int := chunk.length
  if written = n then (fs1, src1, n, none)
  else if written < n then (fs1, src1, written, some .eof)
  else (fs1, src1, written, none)

/-- The function `DoSplitOutExeAndZip` of `splitter.go`. The error of `ReadFooter` is assigned
to `err` and overwritten by `os.Create` before it is read; `panicOn(err)` panics
with `err` when it is not nil; reading a field of a nil `*Footer` panics
(`panic none`). The deferred `Close` calls change neither files nor result. -/
def DoSplitOutExeAndZip (c : Codec) (cfg : CombinerConfig) (fs : FileSys) :
    FileSys × Outcome (Option Footer × Option SplitError) :=
  if cfg.Split ≠ true then
    (fs, .ret (none, some (.splitFlagNotSet cfg)))
  else
    let r := ReadFooter c fs cfg.OutputPath
    match osCreate fs cfg.ExecutablePath with
    | .error e => (fs, .panic (some e))
    | .ok fs1 =>
      match seekStart r.comb with
      | .error e => (fs1, .panic (some e))
      | .ok (comb, exeStartOffset) =>
        if exeStartOffset ≠ 0 then
          (fs1, .panic (some (.exeStartOffsetNonzero exeStartOffset)))
        else
          match r.ft with
          | none => (fs1, .panic none)
          | some foot =>
            match CopyN fs1 cfg.ExecutablePath comb foot.ExecutableLengthBytes with
            | (fs2, _, _, some e) => (fs2, .panic (some e))
            | (fs2, comb2, _, none) =>
              match osCreate fs2 cfg.ZipfilePath with
              | .error e => (fs2, .panic (some e))
              | .ok fs3 =>
                match CopyN fs3 cfg.ZipfilePath comb2 foot.ZipfileLengthBytes with
                | (fs4, _, _, some e) => (fs4, .panic (some e))
                | (fs4, _, _, none) =>
                  (fs4, .ret (some foot, c.VerifyExeZipChecksums foot cfg fs4))

/-- Modelled from the spec: the offset reader is not among the sources. It wraps a
physical file with `(baseOffset, length)`; a virtual read of `[a, b)` maps to the
physical range `[baseOffset + a, baseOffset + b)`, clamped so that no byte outside
`[baseOffset, baseOffset + length)` is exposed. -/
def offsetRead (phys : List Byte) (baseOffset length a b : Nat) : List Byte :=
  (((phys.drop baseOffset).take length).drop a).take (b - a)

/-- The whole virtual file that an offset mount with `(baseOffset, length)` sees. -/
def offsetView (phys : List Byte) (baseOffset length : Nat) : List Byte :=
  offsetRead phys baseOffset length 0 length

/-! ## A small concrete codec

`FromBytes`, `GetFooterChecksum` and the magic strings are parameters of the
development. `demoCodec` is one instance, used to evaluate the definitions on
concrete files: sixteen bytes of leading magic, the two lengths as little-endian
two's-complement 64-bit integers, the 64 stored checksum bytes, sixteen bytes of
trailing magic, and padding; the digest is a byte sum over every field but the
stored checksum. -/

/-- Little-endian value of a byte string. -/
def leNat (bs : List Byte) : Nat := bs.foldr (fun b acc => b.val + 256 * acc) 0

/-- Sum of the bytes of a string. -/
def byteSum (bs : List Byte) : Nat := bs.foldr (fun b acc => b.val + acc) 0

/-- The first 64 bytes of `l`, zero-padded. -/
def pad64 (l : List Byte) : Blake2Sum :=
  ⟨(l ++ List.replicate 64 0).take 64, by simp⟩

/-- The decoder of `demoCodec`. -/
def demoFromBytes (by_ : List Byte) : Footer :=
  { MagicFooterNumber1 := by_.take 16
    ExecutableLengthBytes := wrapInt64 (leNat ((by_.drop 16).take 8))
    ZipfileLengthBytes := wrapInt64 (leNat ((by_.drop 24).take 8))
    FooterBlake2Checksum := pad64 ((by_.drop 32).take 64)
    MagicFooterNumber2 := (by_.drop 96).take 16
    Other := by_.drop 112 }

/-- The digest of `demoCodec`: every byte is the byte sum of the other fields. -/
def demoChecksum (f : Footer) : Blake2Sum :=
  ⟨List.replicate 64 (Fin.ofNat (byteSum f.MagicFooterNumber1 + byteSum f.MagicFooterNumber2
      + byteSum f.Other + (f.ExecutableLengthBytes % 256).toNat
      + (f.ZipfileLengthBytes % 256).toNat)), by simp⟩

/-- The concrete instance; its post-split verification always succeeds. -/
def demoCodec : Codec :=
  { MAGIC1 := [10, 76, 90, 49]
    MAGIC2 := [10, 76, 90, 50]
    FromBytes := demoFromBytes
    GetFooterChecksum := demoChecksum
    VerifyExeZipChecksums := fun _ _ _ => none }

/-- Little-endian two's-complement encoding of an `int64` in eight bytes. -/
def le64 (x : Int) : List Byte :=
  (List.range 8).map (fun k => Fin.ofNat ((x % 2 ^ 64).toNat / 256 ^ k))

/-- A 256-byte footer block in the layout of `demoCodec`. -/
def demoFooterBytes (magic1 magic2 : List Byte) (exe zip : Int) (ck : Byte) : List Byte :=
  (magic1 ++ List.replicate 16 0).take 16 ++ le64 exe ++ le64 zip ++ List.replicate 64 ck
    ++ (magic2 ++ List.replicate 16 0).take 16 ++ List.replicate 144 0

/-- A file system holding one readable file. -/
def oneFile (p : String) (bytes : List Byte) : FileSys :=
  { data := fun q => if q = p then some bytes else none
    canOpen := fun _ => true
    canRead := fun _ => true
    canCreate := fun _ => true }


/-! ## Predicates used in the statements -/

/-- The leading (or trailing) magic bytes of a footer match the constant. -/
def magicMatches (field magic : List Byte) : Prop := field.take magic.length = magic

instance (field magic : List Byte) : Decidable (magicMatches field magic) := by
  unfold magicMatches; infer_instance

/-- The conjunction of the four checks for a decoded footer. -/
def passesChecks (c : Codec) (foot : Footer) (fso : Int) : Prop :=
  magicMatches foot.MagicFooterNumber1 c.MAGIC1 ∧
  magicMatches foot.MagicFooterNumber2 c.MAGIC2 ∧
  c.GetFooterChecksum foot = foot.FooterBlake2Checksum ∧
  fso = wrapInt64 (foot.ZipfileLengthBytes + foot.ExecutableLengthBytes)

instance (c : Codec) (foot : Footer) (fso : Int) : Decidable (passesChecks c foot fso) := by
  unfold passesChecks; infer_instance

/-- The trailing 256 bytes of a file, the bytes `[size - 256, size)`. -/
def footerBlock (bytes : List Byte) : List Byte :=
  (bytes.drop (bytes.length - 256)).take 256

/-- A digest with byte `i` replaced. -/
def Blake2Sum.set (s : Blake2Sum) (i : Nat) (b : Byte) : Blake2Sum :=
  ⟨s.val.set i b, by rw [List.length_set]; exact s.property⟩

/-- The decoder reads `FooterBlake2Checksum` from the 64 bytes of the block that
start at `off`, and no other field from those bytes: byte `i` of the field is
byte `off + i` of the block, and replacing that byte of the block replaces byte
`i` of the field and nothing else. -/
def ChecksumStoredAt (c : Codec) (off : Nat) : Prop :=
  off + 64 ≤ 256 ∧
  ∀ (blk : List Byte), blk.length = 256 → ∀ (i : Nat), i < 64 → ∀ (b : Byte),
    (c.FromBytes blk).FooterBlake2Checksum.val[i]? = blk[off + i]? ∧
    c.FromBytes (blk.set (off + i) b) =
      { c.FromBytes blk with
        FooterBlake2Checksum := (c.FromBytes blk).FooterBlake2Checksum.set i b }

/-- The digest `GetFooterChecksum` does not depend on the field `FooterBlake2Checksum`. -/
def ChecksumIgnoresStored (c : Codec) : Prop :=
  ∀ (f : Footer) (s : Blake2Sum),
    c.GetFooterChecksum { f with FooterBlake2Checksum := s } = c.GetFooterChecksum f

/-- The bytes `io.CopyN` takes from a file holding `content`, read from offset
`pos`, when asked for `n` bytes. -/
def copyChunk (content : List Byte) (pos : Nat) (n : Int) : List Byte :=
  (content.drop pos).take n.toNat

/-- The error `io.CopyN` returns after copying `written` of `n` bytes. -/
def copyErr (written n : Int) : Option SplitError :=
  if written = n then none else if written < n then some .eof else none

/-- What `DoSplitOutExeAndZip` does once `ReadFooter` has succeeded on a file
holding `bytes` with footer `f`, as a function of the two `os.Create` results and
the two copies. -/
def splitResult (c : Codec) (cfg : CombinerConfig) (fs : FileSys) (bytes : List Byte)
    (f : Footer) : FileSys × Outcome (Option Footer × Option SplitError) :=
  let chunk1 := copyChunk bytes 0 f.ExecutableLengthBytes
  let chunk2 := copyChunk bytes chunk1.length f.ZipfileLengthBytes
  if fs.canCreate cfg.ExecutablePath = false then
    (fs, .panic (some (.createFailed cfg.ExecutablePath)))
  else
    match copyErr chunk1.length f.ExecutableLengthBytes with
    | some e => (fs.write cfg.ExecutablePath chunk1, .panic (some e))
    | none =>
      if fs.canCreate cfg.ZipfilePath = false then
        (fs.write cfg.ExecutablePath chunk1, .panic (some (.createFailed cfg.ZipfilePath)))
      else
        match copyErr chunk2.length f.ZipfileLengthBytes with
        | some e =>
          ((fs.write cfg.ExecutablePath chunk1).write cfg.ZipfilePath chunk2, .panic (some e))
        | none =>
          ((fs.write cfg.ExecutablePath chunk1).write cfg.ZipfilePath chunk2,
            .ret (some f, c.VerifyExeZipChecksums f cfg
              ((fs.write cfg.ExecutablePath chunk1).write cfg.ZipfilePath chunk2)))

/-! ## Witness data -/

/-- A footer block in the layout of `demoCodec` whose stored checksum is the
digest of its other fields. -/
def demoSealed (magic1 magic2 : List Byte) (exe zip : Int) : List Byte :=
  demoFooterBytes magic1 magic2 exe zip
    ((demoChecksum (demoFromBytes (demoFooterBytes magic1 magic2 exe zip 0))).val.headD 0)

/-- A combined file: a three-byte executable, a two-byte zip, and their footer. -/
def goodCombined : List Byte :=
  [1, 2, 3] ++ [4, 5] ++ demoSealed demoCodec.MAGIC1 demoCodec.MAGIC2 3 2

/-- A 256-byte file whose footer has a matching checksum and lengths summing to
zero, but a leading magic that is not `MAGIC1`. -/
def badMagic1File : List Byte := demoSealed [0, 0, 0, 0] demoCodec.MAGIC2 0 0

/-- As `badMagic1File`, with the trailing magic wrong instead. -/
def badMagic2File : List Byte := demoSealed demoCodec.MAGIC1 [0, 0, 0, 0] 0 0

/-- A 256-byte footer with both magics right and a stored checksum of zeros. -/
def badChecksumFile : List Byte := demoFooterBytes demoCodec.MAGIC1 demoCodec.MAGIC2 0 0 0

/-- A 256-byte footer, valid but for lengths that sum to 5, not to 0. -/
def badSizeFile : List Byte := demoSealed demoCodec.MAGIC1 demoCodec.MAGIC2 3 2

/-- A file of 255 bytes, one short of a footer. -/
def shortFile : List Byte := List.replicate 255 7

/-- A file system in which `shortFile` exists at "combined" and nothing can be
opened or read. -/
def lockedShortFs : FileSys :=
  { data := fun q => if q = "combined" then some shortFile else none
    canOpen := fun _ => false
    canRead := fun _ => false
    canCreate := fun _ => false }

/-- A 256-byte footer, valid for `footerStartOffset = 0`, whose executable length
is `-1` and whose zip length is `1`. -/
def negativeLengthFile : List Byte := demoSealed demoCodec.MAGIC1 demoCodec.MAGIC2 (-1) 1

/-- A 261-byte file that `ReadFooter` accepts: five bytes and a footer with
executable length `-1` and zip length `6`, which sum to the footer offset 5. -/
def negativeCombined : List Byte :=
  [1, 2, 3, 4, 5] ++ demoSealed demoCodec.MAGIC1 demoCodec.MAGIC2 (-1) 6

/-- The split configuration used in the examples. -/
def splitCfg : CombinerConfig := ⟨"combined", "exe", "zip", true⟩

/-- A file system without any file, in which files can be created. -/
def emptyFs : FileSys :=
  { data := fun _ => none
    canOpen := fun _ => true
    canRead := fun _ => true
    canCreate := fun _ => true }

/-- A file system holding `goodCombined` at "combined" in which no file can be
created. -/
def readOnlyFs : FileSys :=
  { data := fun q => if q = "combined" then some goodCombined else none
    canOpen := fun _ => true
    canRead := fun _ => true
    canCreate := fun _ => false }

/-! ## Byte comparison -/

theorem firstDiff_eq_none_iff (a b : List Byte) (n idx : Nat) :
    firstDiff a b n idx = none ↔ a.take n = b.take n ∧ n ≤ a.length ∧ n ≤ b.length := by
  induction n generalizing a b idx with
  | zero => simp [firstDiff]
  | succ n ih =>
    cases a with
    | nil => simp [firstDiff]
    | cons x a =>
      cases b with
      | nil => simp [firstDiff]
      | cons y b =>
        by_cases hxy : x = y
        · simp [firstDiff, hxy, ih]
        · simp [firstDiff, hxy]

theorem firstDiff_eq_some (a b : List Byte) (n idx j : Nat) (ha : n ≤ a.length)
    (hb : n ≤ b.length) (h : firstDiff a b n idx = some j) :
    ∃ k, j = idx + k ∧ k < n ∧ a[k]? ≠ b[k]? ∧ ∀ m, m < k → a[m]? = b[m]? := by
  induction n generalizing a b idx with
  | zero => simp [firstDiff] at h
  | succ n ih =>
    cases a with
    | nil => simp at ha
    | cons x a =>
      cases b with
      | nil => simp at hb
      | cons y b =>
        by_cases hxy : x = y
        · simp only [firstDiff, hxy, if_true] at h
          simp only [List.length_cons, Nat.add_le_add_iff_right] at ha hb
          obtain ⟨k, hj, hk, hne, hlt⟩ := ih a b (idx + 1) ha hb h
          refine ⟨k + 1, by omega, by omega, by simpa using hne, ?_⟩
          intro m hm
          cases m with
          | zero => simp [hxy]
          | succ m => simpa using hlt m (by omega)
        · simp only [firstDiff, hxy, if_false, Option.some.injEq] at h
          exact ⟨0, by omega, by omega, by simpa using hxy, by intro m hm; omega⟩

/-- On two 64-byte digests the comparison loop finds no difference exactly when
the digests are equal. -/
theorem firstDiff_digest_none_iff (x y : Blake2Sum) :
    firstDiff x.val y.val 64 0 = none ↔ x = y := by
  rw [firstDiff_eq_none_iff]
  have hx := x.property
  have hy := y.property
  constructor
  · rintro ⟨h, -, -⟩
    apply Subtype.ext
    rw [List.take_of_length_le (by omega), List.take_of_length_le (by omega)] at h
    exact h
  · intro h
    subst h
    exact ⟨rfl, by omega, by omega⟩

/-- The loop over a digest pair reports the first index at which they differ. -/
theorem firstDiff_digest_some (x y : Blake2Sum) (j : Nat)
    (h : firstDiff x.val y.val 64 0 = some j) :
    j < 64 ∧ x.val[j]? ≠ y.val[j]? ∧ ∀ m, m < j → x.val[m]? = y.val[m]? := by
  obtain ⟨k, hj, hk, hne, hlt⟩ :=
    firstDiff_eq_some x.val y.val 64 0 j (by rw [x.property]) (by rw [y.property]) h
  have : j = k := by omega
  subst this
  exact ⟨hk, hne, hlt⟩

theorem compareByteSlices_magic (field magic : List Byte) :
    (compareByteSlices (field.take magic.length) magic magic.length).2 = none ↔
      magicMatches field magic := by
  unfold compareByteSlices magicMatches
  cases h : firstDiff (field.take magic.length) magic magic.length 0 with
  | none =>
    simp only [true_iff]
    rw [firstDiff_eq_none_iff] at h
    obtain ⟨h1, -, -⟩ := h
    rw [List.take_take, Nat.min_self, List.take_length] at h1
    exact h1
  | some i =>
    simp only [reduceCtorEq, false_iff]
    intro hm
    have : firstDiff (field.take magic.length) magic magic.length 0 = none := by
      rw [firstDiff_eq_none_iff, hm]
      simp
    rw [this] at h
    cases h

/-! ## The four checks of `ReifyFooterAndDoInexpensiveChecks` -/

theorem reify_magic1_bad (c : Codec) (by_ : List Byte) (path : String) (fso : Int)
    (h1 : ¬ magicMatches (c.FromBytes by_).MagicFooterNumber1 c.MAGIC1) :
    ReifyFooterAndDoInexpensiveChecks c by_ path fso = (none, some .magic1NotFound) := by
  have h := (compareByteSlices_magic (c.FromBytes by_).MagicFooterNumber1 c.MAGIC1).not.mpr h1
  simp only [ReifyFooterAndDoInexpensiveChecks, ne_eq, h, not_false_eq_true, if_true]

theorem reify_magic2_bad (c : Codec) (by_ : List Byte) (path : String) (fso : Int)
    (h1 : magicMatches (c.FromBytes by_).MagicFooterNumber1 c.MAGIC1)
    (h2 : ¬ magicMatches (c.FromBytes by_).MagicFooterNumber2 c.MAGIC2) :
    ReifyFooterAndDoInexpensiveChecks c by_ path fso = (none, some .magic2NotFound) := by
  have e1 := (compareByteSlices_magic (c.FromBytes by_).MagicFooterNumber1 c.MAGIC1).mpr h1
  have e2 := (compareByteSlices_magic (c.FromBytes by_).MagicFooterNumber2 c.MAGIC2).not.mpr h2
  simp only [ReifyFooterAndDoInexpensiveChecks, ne_eq, e1, e2, not_true_eq_false,
    not_false_eq_true, if_true, if_false]

theorem reify_checksum_bad (c : Codec) (by_ : List Byte) (path : String) (fso : Int) (i : Nat)
    (h1 : magicMatches (c.FromBytes by_).MagicFooterNumber1 c.MAGIC1)
    (h2 : magicMatches (c.FromBytes by_).MagicFooterNumber2 c.MAGIC2)
    (h3 : firstDiff (c.GetFooterChecksum (c.FromBytes by_)).val
      (c.FromBytes by_).FooterBlake2Checksum.val 64 0 = some i) :
    ReifyFooterAndDoInexpensiveChecks c by_ path fso =
      (none, some (.footerChecksum path i fso (c.GetFooterChecksum (c.FromBytes by_))
        (c.FromBytes by_).FooterBlake2Checksum)) := by
  have e1 := (compareByteSlices_magic (c.FromBytes by_).MagicFooterNumber1 c.MAGIC1).mpr h1
  have e2 := (compareByteSlices_magic (c.FromBytes by_).MagicFooterNumber2 c.MAGIC2).mpr h2
  simp only [ReifyFooterAndDoInexpensiveChecks, ne_eq, e1, e2, not_true_eq_false, if_false, h3]

theorem reify_size_bad (c : Codec) (by_ : List Byte) (path : String) (fso : Int)
    (h1 : magicMatches (c.FromBytes by_).MagicFooterNumber1 c.MAGIC1)
    (h2 : magicMatches (c.FromBytes by_).MagicFooterNumber2 c.MAGIC2)
    (h3 : c.GetFooterChecksum (c.FromBytes by_) = (c.FromBytes by_).FooterBlake2Checksum)
    (h4 : fso ≠ wrapInt64 ((c.FromBytes by_).ZipfileLengthBytes
      + (c.FromBytes by_).ExecutableLengthBytes)) :
    ReifyFooterAndDoInexpensiveChecks c by_ path fso =
      (none, some (.sizeMismatch fso (c.FromBytes by_).ZipfileLengthBytes
        (c.FromBytes by_).ExecutableLengthBytes
        (wrapInt64 ((c.FromBytes by_).ZipfileLengthBytes
          + (c.FromBytes by_).ExecutableLengthBytes)))) := by
  have e1 := (compareByteSlices_magic (c.FromBytes by_).MagicFooterNumber1 c.MAGIC1).mpr h1
  have e2 := (compareByteSlices_magic (c.FromBytes by_).MagicFooterNumber2 c.MAGIC2).mpr h2
  have e3 := (firstDiff_digest_none_iff _ _).mpr h3
  simp only [ReifyFooterAndDoInexpensiveChecks, ne_eq, e1, e2, not_true_eq_false, if_false, e3,
    h4, not_false_eq_true, if_true]

theorem reify_good (c : Codec) (by_ : List Byte) (path : String) (fso : Int)
    (h1 : magicMatches (c.FromBytes by_).MagicFooterNumber1 c.MAGIC1)
    (h2 : magicMatches (c.FromBytes by_).MagicFooterNumber2 c.MAGIC2)
    (h3 : c.GetFooterChecksum (c.FromBytes by_) = (c.FromBytes by_).FooterBlake2Checksum)
    (h4 : fso = wrapInt64 ((c.FromBytes by_).ZipfileLengthBytes
      + (c.FromBytes by_).ExecutableLengthBytes)) :
    ReifyFooterAndDoInexpensiveChecks c by_ path fso = (some (c.FromBytes by_), none) := by
  have e1 := (compareByteSlices_magic (c.FromBytes by_).MagicFooterNumber1 c.MAGIC1).mpr h1
  have e2 := (compareByteSlices_magic (c.FromBytes by_).MagicFooterNumber2 c.MAGIC2).mpr h2
  have e3 := (firstDiff_digest_none_iff _ _).mpr h3
  simp only [ReifyFooterAndDoInexpensiveChecks, ne_eq, e1, e2, not_true_eq_false, if_false, e3]
  rw [if_neg (by simpa using h4)]

/-- Every result of the validator: either all four checks pass and the decoded
footer is returned with a nil error, or a check fails and the footer is nil. -/
theorem reify_cases (c : Codec) (by_ : List Byte) (path : String) (fso : Int) :
    (passesChecks c (c.FromBytes by_) fso ∧
      ReifyFooterAndDoInexpensiveChecks c by_ path fso = (some (c.FromBytes by_), none)) ∨
    (¬ passesChecks c (c.FromBytes by_) fso ∧
      ∃ e, ReifyFooterAndDoInexpensiveChecks c by_ path fso = (none, some e)) := by
  by_cases h1 : magicMatches (c.FromBytes by_).MagicFooterNumber1 c.MAGIC1
  · by_cases h2 : magicMatches (c.FromBytes by_).MagicFooterNumber2 c.MAGIC2
    · by_cases h3 : c.GetFooterChecksum (c.FromBytes by_) = (c.FromBytes by_).FooterBlake2Checksum
      · by_cases h4 : fso = wrapInt64 ((c.FromBytes by_).ZipfileLengthBytes
            + (c.FromBytes by_).ExecutableLengthBytes)
        · exact Or.inl ⟨⟨h1, h2, h3, h4⟩, reify_good c by_ path fso h1 h2 h3 h4⟩
        · exact Or.inr ⟨fun h => h4 h.2.2.2, _, reify_size_bad c by_ path fso h1 h2 h3 h4⟩
      · cases hd : firstDiff (c.GetFooterChecksum (c.FromBytes by_)).val
            (c.FromBytes by_).FooterBlake2Checksum.val 64 0 with
        | none => exact absurd ((firstDiff_digest_none_iff _ _).mp hd) h3
        | some i =>
          exact Or.inr ⟨fun h => h3 h.2.2.1, _, reify_checksum_bad c by_ path fso i h1 h2 hd⟩
    · exact Or.inr ⟨fun h => h2 h.2.1, _, reify_magic2_bad c by_ path fso h1 h2⟩
  · exact Or.inr ⟨fun h => h1 h.1, _, reify_magic1_bad c by_ path fso h1⟩

/-! ## `ReadFooter` -/

theorem footerBlock_length (bytes : List Byte) (h : 256 ≤ bytes.length) :
    (footerBlock bytes).length = 256 := by
  simp only [footerBlock, List.length_take, List.length_drop]
  omega

/-- On a file that can be stat'd, opened and read and holds at least 256 bytes,
`ReadFooter` is decided by the validator run on the trailing block. -/
theorem readFooter_of_file (c : Codec) (fs : FileSys) (p : String) (bytes : List Byte)
    (hd : fs.data p = some bytes) (hlen : 256 ≤ bytes.length)
    (ho : fs.canOpen p = true) (hr : fs.canRead p = true) :
    ReadFooter c fs p =
      match ReifyFooterAndDoInexpensiveChecks c (footerBlock bytes) p
          ((bytes.length : Int) - 256) with
      | (_, some err) => ⟨-1, none, none, some err⟩
      | (foot, none) => ⟨(bytes.length : Int) - 256, foot, some ⟨p, bytes.length⟩, none⟩ := by
  have hsz : ¬ ((bytes.length : Int) < 256) := by omega
  have htn : ((bytes.length : Int) - 256).toNat = bytes.length - 256 := by omega
  have hbl := footerBlock_length bytes hlen
  have hpos : bytes.length - 256 + 256 = bytes.length := by omega
  unfold footerBlock at hbl
  simp only [ReadFooter, hd, LIBZIPFS_FOOTER_LEN, hsz, if_false, ho, hr, htn, hbl, ne_eq,
    not_true_eq_false, Bool.true_eq_false, hpos, footerBlock, Nat.cast_ofNat]

theorem readFooter_success (c : Codec) (fs : FileSys) (p : String) (bytes : List Byte)
    (hd : fs.data p = some bytes) (hlen : 256 ≤ bytes.length)
    (ho : fs.canOpen p = true) (hr : fs.canRead p = true)
    (hp : passesChecks c (c.FromBytes (footerBlock bytes)) ((bytes.length : Int) - 256)) :
    ReadFooter c fs p =
      ⟨(bytes.length : Int) - 256, some (c.FromBytes (footerBlock bytes)),
        some ⟨p, bytes.length⟩, none⟩ := by
  rw [readFooter_of_file c fs p bytes hd hlen ho hr]
  rcases reify_cases c (footerBlock bytes) p ((bytes.length : Int) - 256) with ⟨_, h⟩ | ⟨h, _⟩
  · rw [h]
  · exact absurd hp h

theorem readFooter_failure (c : Codec) (fs : FileSys) (p : String) (bytes : List Byte)
    (hd : fs.data p = some bytes) (hlen : 256 ≤ bytes.length)
    (ho : fs.canOpen p = true) (hr : fs.canRead p = true)
    (hp : ¬ passesChecks c (c.FromBytes (footerBlock bytes)) ((bytes.length : Int) - 256)) :
    ∃ e, ReifyFooterAndDoInexpensiveChecks c (footerBlock bytes) p
        ((bytes.length : Int) - 256) = (none, some e) ∧
      ReadFooter c fs p = ⟨-1, none, none, some e⟩ := by
  rw [readFooter_of_file c fs p bytes hd hlen ho hr]
  rcases reify_cases c (footerBlock bytes) p ((bytes.length : Int) - 256) with ⟨h, _⟩ | ⟨_, e, h⟩
  · exact absurd h hp
  · exact ⟨e, h, by rw [h]⟩

/-- Whenever `ReadFooter` returns a nil error, the file exists with at least
256 bytes, it could be opened and read, its trailing block passes the four
checks, and the result is the offset `size - 256`, the decoded block and a handle. -/
theorem readFooter_err_none (c : Codec) (fs : FileSys) (p : String)
    (h : (ReadFooter c fs p).err = none) :
    ∃ bytes, fs.data p = some bytes ∧ 256 ≤ bytes.length ∧
      fs.canOpen p = true ∧ fs.canRead p = true ∧
      passesChecks c (c.FromBytes (footerBlock bytes)) ((bytes.length : Int) - 256) ∧
      ReadFooter c fs p =
        ⟨(bytes.length : Int) - 256, some (c.FromBytes (footerBlock bytes)),
          some ⟨p, bytes.length⟩, none⟩ := by
  cases hd : fs.data p with
  | none => simp [ReadFooter, hd] at h
  | some bytes =>
    by_cases hlen : 256 ≤ bytes.length
    · cases ho : fs.canOpen p with
      | false =>
        have hlt : ¬ bytes.length < 256 := by omega
        simp [ReadFooter, hd, LIBZIPFS_FOOTER_LEN, ho, hlt] at h
      | true =>
        cases hr : fs.canRead p with
        | false =>
          have hlt : ¬ bytes.length < 256 := by omega
          simp [ReadFooter, hd, LIBZIPFS_FOOTER_LEN, ho, hr, hlt] at h
        | true =>
          by_cases hp : passesChecks c (c.FromBytes (footerBlock bytes))
              ((bytes.length : Int) - 256)
          · exact ⟨bytes, rfl, hlen, rfl, rfl, hp,
              readFooter_success c fs p bytes hd hlen ho hr hp⟩
          · obtain ⟨e, -, he⟩ := readFooter_failure c fs p bytes hd hlen ho hr hp
            rw [he] at h
            cases h
    · have hlt : bytes.length < 256 := by omega
      simp [ReadFooter, hd, LIBZIPFS_FOOTER_LEN, hlt] at h

theorem reify_err_kind (c : Codec) (by_ : List Byte) (path : String) (fso : Int)
    (e : SplitError) (h : (ReifyFooterAndDoInexpensiveChecks c by_ path fso).2 = some e) :
    e = .magic1NotFound ∨ e = .magic2NotFound ∨
      (∃ i x y, e = .footerChecksum path i fso x y) ∨ ∃ a b d, e = .sizeMismatch fso a b d := by
  by_cases h1 : magicMatches (c.FromBytes by_).MagicFooterNumber1 c.MAGIC1
  · by_cases h2 : magicMatches (c.FromBytes by_).MagicFooterNumber2 c.MAGIC2
    · by_cases h3 : c.GetFooterChecksum (c.FromBytes by_) = (c.FromBytes by_).FooterBlake2Checksum
      · by_cases h4 : fso = wrapInt64 ((c.FromBytes by_).ZipfileLengthBytes
            + (c.FromBytes by_).ExecutableLengthBytes)
        · rw [reify_good c by_ path fso h1 h2 h3 h4] at h
          cases h
        · rw [reify_size_bad c by_ path fso h1 h2 h3 h4] at h
          simp only [Option.some.injEq] at h
          exact Or.inr (Or.inr (Or.inr ⟨_, _, _, h.symm⟩))
      · cases hd : firstDiff (c.GetFooterChecksum (c.FromBytes by_)).val
            (c.FromBytes by_).FooterBlake2Checksum.val 64 0 with
        | none => exact absurd ((firstDiff_digest_none_iff _ _).mp hd) h3
        | some i =>
          rw [reify_checksum_bad c by_ path fso i h1 h2 hd] at h
          simp only [Option.some.injEq] at h
          exact Or.inr (Or.inr (Or.inl ⟨_, _, _, h.symm⟩))
    · rw [reify_magic2_bad c by_ path fso h1 h2] at h
      simp only [Option.some.injEq] at h
      exact Or.inr (Or.inl h.symm)
  · rw [reify_magic1_bad c by_ path fso h1] at h
    simp only [Option.some.injEq] at h
    exact Or.inl h.symm

/-! ## One changed byte in the stored checksum -/

theorem firstDiff_set (x : List Byte) (n idx i : Nat) (b : Byte) (hi : i < n)
    (hn : n ≤ x.length) (hb : x[i]? ≠ some b) :
    firstDiff x (x.set i b) n idx = some (idx + i) := by
  induction x generalizing n idx i with
  | nil => simp at hn; omega
  | cons a x ih =>
    cases n with
    | zero => omega
    | succ n =>
      cases i with
      | zero =>
        have hab : a ≠ b := by simpa using hb
        simp [firstDiff, hab]
      | succ i =>
        simp only [List.set_cons_succ, firstDiff, if_true]
        rw [ih n (idx + 1) i (by omega) (by simpa using hn) (by simpa using hb)]
        congr 1
        omega

theorem footerBlock_set (bytes : List Byte) (j : Nat) (b : Byte) :
    footerBlock (bytes.set (bytes.length - 256 + j) b) = (footerBlock bytes).set j b := by
  unfold footerBlock
  rw [List.length_set, ← List.set_drop, List.set_take]

theorem take_set_of_le (l : List Byte) (n m : Nat) (b : Byte) (h : n ≤ m) :
    (l.set m b).take n = l.take n := by
  rw [List.set_take, List.set_eq_of_length_le]
  rw [List.length_take]
  omega

theorem demoCodec_checksumStoredAt : ChecksumStoredAt demoCodec 32 := by
  refine ⟨by omega, ?_⟩
  intro blk hlen i hi b
  have hsub : (List.take 64 (List.drop 32 blk)).length = 64 := by
    simp only [List.length_take, List.length_drop]
    omega
  have hpad : ∀ l : List Byte, l.length = 64 → (pad64 l).val = l := by
    intro l hl
    simp only [pad64]
    rw [List.take_append_of_le_length (by omega), List.take_of_length_le (by omega)]
  constructor
  · show (pad64 (List.take 64 (List.drop 32 blk))).val[i]? = blk[32 + i]?
    rw [hpad _ hsub, List.getElem?_take, if_pos hi, List.getElem?_drop]
  · show demoFromBytes (blk.set (32 + i) b) = _
    have e1 : List.take 16 (blk.set (32 + i) b) = List.take 16 blk :=
      take_set_of_le blk 16 (32 + i) b (by omega)
    have e2 : List.take 8 (List.drop 16 (blk.set (32 + i) b)) = List.take 8 (List.drop 16 blk) := by
      rw [List.drop_set, if_neg (by omega)]
      exact take_set_of_le _ _ _ b (by omega)
    have e3 : List.take 8 (List.drop 24 (blk.set (32 + i) b)) = List.take 8 (List.drop 24 blk) := by
      rw [List.drop_set, if_neg (by omega)]
      exact take_set_of_le _ _ _ b (by omega)
    have e4 : List.take 64 (List.drop 32 (blk.set (32 + i) b)) =
        (List.take 64 (List.drop 32 blk)).set i b := by
      rw [← List.set_drop, List.set_take]
    have e5 : List.drop 96 (blk.set (32 + i) b) = List.drop 96 blk :=
      List.drop_set_of_lt b blk (by omega)
    have e6 : List.drop 112 (blk.set (32 + i) b) = List.drop 112 blk :=
      List.drop_set_of_lt b blk (by omega)
    have e7 : pad64 ((List.take 64 (List.drop 32 blk)).set i b) =
        (pad64 (List.take 64 (List.drop 32 blk))).set i b := by
      apply Subtype.ext
      rw [hpad _ (by rw [List.length_set]; exact hsub)]
      simp only [Blake2Sum.set]
      rw [hpad _ hsub]
    simp only [demoFromBytes, e1, e2, e3, e4, e5, e6, e7, demoCodec]

theorem demoCodec_checksumIgnoresStored : ChecksumIgnoresStored demoCodec := by
  intro f s
  rfl

/-! ## The file system and `DoSplitOutExeAndZip` -/

theorem write_data (fs : FileSys) (p q : String) (x : List Byte) :
    (fs.write p x).data q = if q = p then some x else fs.data q := rfl

theorem write_data_same (fs : FileSys) (p : String) (x : List Byte) :
    (fs.write p x).data p = some x := by
  simp [FileSys.write]

theorem write_data_ne (fs : FileSys) (p q : String) (x : List Byte) (h : q ≠ p) :
    (fs.write p x).data q = fs.data q := by
  simp [FileSys.write, h]

theorem write_write (fs : FileSys) (p : String) (x y : List Byte) :
    (fs.write p x).write p y = fs.write p y := by
  simp only [FileSys.write, FileSys.mk.injEq, and_self, and_true]
  funext q
  split <;> rfl

theorem write_write_write_write (fs : FileSys) (p q : String) (x y : List Byte) :
    (((fs.write p x).write q y).write p x).write q y = (fs.write p x).write q y := by
  simp only [FileSys.write, FileSys.mk.injEq, and_self, and_true]
  funext r
  by_cases h1 : r = q
  · simp [h1]
  · by_cases h2 : r = p
    · simp [h1, h2]
    · simp [h1, h2]

theorem readFooter_congr (c : Codec) (fs fs2 : FileSys) (p : String)
    (hd : fs2.data p = fs.data p) (ho : fs2.canOpen p = fs.canOpen p)
    (hr : fs2.canRead p = fs.canRead p) : ReadFooter c fs2 p = ReadFooter c fs p := by
  unfold ReadFooter
  rw [hd, ho, hr]

theorem readFooter_err_some (c : Codec) (fs : FileSys) (p : String) (e : SplitError)
    (h : (ReadFooter c fs p).err = some e) : ReadFooter c fs p = ⟨-1, none, none, some e⟩ := by
  have shape : ReadFooter c fs p = ⟨-1, none, none, (ReadFooter c fs p).err⟩ ∨
      (ReadFooter c fs p).err = none := by
    cases hd : fs.data p with
    | none => left; simp [ReadFooter, hd]
    | some bytes =>
      by_cases hlen : 256 ≤ bytes.length
      · have hlt : ¬ ((bytes.length : Int) < 256) := by omega
        cases ho : fs.canOpen p with
        | false =>
          left
          simp only [ReadFooter, hd, LIBZIPFS_FOOTER_LEN, Nat.cast_ofNat, hlt, if_false, ho,
            if_true]
        | true =>
          cases hr : fs.canRead p with
          | false =>
            left
            simp only [ReadFooter, hd, LIBZIPFS_FOOTER_LEN, Nat.cast_ofNat, hlt, if_false, ho,
              hr, if_true, Bool.true_eq_false]
          | true =>
            by_cases hp : passesChecks c (c.FromBytes (footerBlock bytes))
                ((bytes.length : Int) - 256)
            · right
              rw [readFooter_success c fs p bytes hd hlen ho hr hp]
            · left
              obtain ⟨e2, -, he2⟩ := readFooter_failure c fs p bytes hd hlen ho hr hp
              rw [he2]
      · have hlt : (bytes.length : Int) < 256 := by omega
        left
        simp only [ReadFooter, hd, LIBZIPFS_FOOTER_LEN, Nat.cast_ofNat, hlt, if_true]
  rcases shape with hsh | hsh
  · rw [hsh, h]
  · rw [hsh] at h
    cases h

theorem copyN_eq (fs : FileSys) (dst : String) (src : File) (n : Int) (content : List Byte)
    (hsrc : fs.data src.path = some content) (hdst : fs.data dst = some []) :
    ∃ w, CopyN fs dst src n =
      (fs.write dst (copyChunk content src.pos n),
        ⟨src.path, src.pos + (copyChunk content src.pos n).length⟩, w,
        copyErr (copyChunk content src.pos n).length n) := by
  unfold CopyN copyErr copyChunk
  simp only [hsrc, hdst, Option.getD_some, List.nil_append]
  split
  · exact ⟨_, rfl⟩
  · split
    · exact ⟨_, rfl⟩
    · exact ⟨_, rfl⟩

/-- When `ReadFooter` fails, `DoSplitOutExeAndZip` with the flag set drops the
error, creates the executable file, and panics on the nil handle. -/
theorem doSplit_of_readFooter_error (c : Codec) (cfg : CombinerConfig) (fs : FileSys)
    (e : SplitError) (hs : cfg.Split = true)
    (he : (ReadFooter c fs cfg.OutputPath).err = some e) :
    DoSplitOutExeAndZip c cfg fs =
      if fs.canCreate cfg.ExecutablePath = false then
        (fs, .panic (some (.createFailed cfg.ExecutablePath)))
      else (fs.write cfg.ExecutablePath [], .panic (some .invalidHandle)) := by
  have hr := readFooter_err_some c fs cfg.OutputPath e he
  unfold DoSplitOutExeAndZip
  rw [if_neg (by simp [hs]), hr]
  cases hc : fs.canCreate cfg.ExecutablePath with
  | false => simp [osCreate, hc]
  | true => simp [osCreate, hc, seekStart]

/-- When `ReadFooter` succeeds on `OutputPath` and neither output path is
`OutputPath`, `DoSplitOutExeAndZip` with the flag set is `splitResult`. -/
theorem doSplit_of_readFooter_ok (c : Codec) (cfg : CombinerConfig) (fs : FileSys)
    (bytes : List Byte) (hs : cfg.Split = true)
    (hd : fs.data cfg.OutputPath = some bytes)
    (hok : (ReadFooter c fs cfg.OutputPath).err = none)
    (hE : cfg.ExecutablePath ≠ cfg.OutputPath) (hZ : cfg.ZipfilePath ≠ cfg.OutputPath) :
    DoSplitOutExeAndZip c cfg fs =
      splitResult c cfg fs bytes (c.FromBytes (footerBlock bytes)) := by
  obtain ⟨b0, hb0, hlen, ho, hr, hp, hres⟩ := readFooter_err_none c fs cfg.OutputPath hok
  rw [hd] at hb0
  cases hb0
  unfold DoSplitOutExeAndZip splitResult
  rw [if_neg (by simp [hs]), hres]
  cases hc : fs.canCreate cfg.ExecutablePath with
  | false => simp [osCreate, hc]
  | true =>
    simp only [osCreate, hc, if_true, seekStart, ne_eq, not_true_eq_false, if_false,
      Bool.true_eq_false]
    obtain ⟨w1, h1⟩ := copyN_eq (fs.write cfg.ExecutablePath []) cfg.ExecutablePath
      ⟨cfg.OutputPath, 0⟩ (c.FromBytes (footerBlock bytes)).ExecutableLengthBytes bytes
      (by rw [write_data_ne _ _ _ _ (Ne.symm hE)]; exact hd) (write_data_same _ _ _)
    rw [h1, write_write]
    cases hce : copyErr (copyChunk bytes 0
        (c.FromBytes (footerBlock bytes)).ExecutableLengthBytes).length
        (c.FromBytes (footerBlock bytes)).ExecutableLengthBytes with
    | some e1 => rfl
    | none =>
      simp only [FileSys.write, Nat.zero_add]
      cases hcz : fs.canCreate cfg.ZipfilePath with
      | false => rfl
      | true =>
        simp only [if_true, Bool.true_eq_false, if_false]
        obtain ⟨w2, h2⟩ := copyN_eq
          ((fs.write cfg.ExecutablePath (copyChunk bytes 0
            (c.FromBytes (footerBlock bytes)).ExecutableLengthBytes)).write cfg.ZipfilePath [])
          cfg.ZipfilePath
          ⟨cfg.OutputPath, (copyChunk bytes 0
            (c.FromBytes (footerBlock bytes)).ExecutableLengthBytes).length⟩
          (c.FromBytes (footerBlock bytes)).ZipfileLengthBytes bytes
          (by rw [write_data_ne _ _ _ _ (Ne.symm hZ), write_data_ne _ _ _ _ (Ne.symm hE)]
              exact hd)
          (write_data_same _ _ _)
        rw [write_write] at h2
        simp only [FileSys.write] at h2
        rw [h2]
        cases hcz2 : copyErr (copyChunk bytes (copyChunk bytes 0
            (c.FromBytes (footerBlock bytes)).ExecutableLengthBytes).length
            (c.FromBytes (footerBlock bytes)).ZipfileLengthBytes).length
            (c.FromBytes (footerBlock bytes)).ZipfileLengthBytes with
        | some e2 => rfl
        | none => rfl

theorem copyErr_eq_none_iff (w n : Int) : copyErr w n = none ↔ n ≤ w := by
  unfold copyErr
  by_cases h1 : w = n
  · simp [h1]
  · by_cases h2 : w < n
    · simp [h1, h2]
    · simp only [h1, h2, if_false, true_iff]
      omega

theorem copyChunk_length (content : List Byte) (pos : Nat) (n : Int) :
    (copyChunk content pos n).length = min n.toNat (content.length - pos) := by
  simp [copyChunk]

theorem splitResult_flags (c : Codec) (cfg : CombinerConfig) (fs : FileSys)
    (bytes : List Byte) (f : Footer) :
    (splitResult c cfg fs bytes f).1.canOpen = fs.canOpen ∧
    (splitResult c cfg fs bytes f).1.canRead = fs.canRead ∧
    (splitResult c cfg fs bytes f).1.canCreate = fs.canCreate ∧
    ∀ q, q ≠ cfg.ExecutablePath → q ≠ cfg.ZipfilePath →
      (splitResult c cfg fs bytes f).1.data q = fs.data q := by
  unfold splitResult
  simp only
  split
  · exact ⟨rfl, rfl, rfl, fun _ _ _ => rfl⟩
  · split
    · exact ⟨rfl, rfl, rfl, fun q h1 _ => write_data_ne _ _ _ _ h1⟩
    · split
      · exact ⟨rfl, rfl, rfl, fun q h1 _ => write_data_ne _ _ _ _ h1⟩
      · split
        · refine ⟨rfl, rfl, rfl, fun q h1 h2 => ?_⟩
          rw [write_data_ne _ _ _ _ h2, write_data_ne _ _ _ _ h1]
        · refine ⟨rfl, rfl, rfl, fun q h1 h2 => ?_⟩
          rw [write_data_ne _ _ _ _ h2, write_data_ne _ _ _ _ h1]

theorem splitResult_idem (c : Codec) (cfg : CombinerConfig) (fs : FileSys)
    (bytes : List Byte) (f : Footer) :
    splitResult c cfg (splitResult c cfg fs bytes f).1 bytes f = splitResult c cfg fs bytes f := by
  unfold splitResult
  simp only
  cases hc : fs.canCreate cfg.ExecutablePath with
  | false => simp [hc]
  | true =>
    simp only [Bool.true_eq_false, if_false]
    cases he : copyErr (copyChunk bytes 0 f.ExecutableLengthBytes).length
        f.ExecutableLengthBytes with
    | some e =>
      simp only [FileSys.write, hc, Bool.true_eq_false, if_false, he]
      congr 1
      simp only [FileSys.mk.injEq, and_self, and_true]
      funext q
      split <;> rfl
    | none =>
      simp only
      cases hz : fs.canCreate cfg.ZipfilePath with
      | false =>
        simp only [if_true, FileSys.write, hc, Bool.true_eq_false, if_false, he, hz]
        congr 1
        simp only [FileSys.mk.injEq, and_self, and_true]
        funext q
        split <;> rfl
      | true =>
        simp only [Bool.true_eq_false, if_false]
        cases he2 : copyErr (copyChunk bytes (copyChunk bytes 0 f.ExecutableLengthBytes).length
            f.ZipfileLengthBytes).length f.ZipfileLengthBytes with
        | some e2 =>
          have hw := write_write_write_write fs cfg.ExecutablePath cfg.ZipfilePath
            (copyChunk bytes 0 f.ExecutableLengthBytes)
            (copyChunk bytes (copyChunk bytes 0 f.ExecutableLengthBytes).length
              f.ZipfileLengthBytes)
          have hcc : ((fs.write cfg.ExecutablePath (copyChunk bytes 0
              f.ExecutableLengthBytes)).write cfg.ZipfilePath
              (copyChunk bytes (copyChunk bytes 0 f.ExecutableLengthBytes).length
                f.ZipfileLengthBytes)).canCreate = fs.canCreate := rfl
          simp only [hcc, hc, hz, he, he2, hw, Bool.true_eq_false, if_false]
        | none =>
          have hw := write_write_write_write fs cfg.ExecutablePath cfg.ZipfilePath
            (copyChunk bytes 0 f.ExecutableLengthBytes)
            (copyChunk bytes (copyChunk bytes 0 f.ExecutableLengthBytes).length
              f.ZipfileLengthBytes)
          have hcc : ((fs.write cfg.ExecutablePath (copyChunk bytes 0
              f.ExecutableLengthBytes)).write cfg.ZipfilePath
              (copyChunk bytes (copyChunk bytes 0 f.ExecutableLengthBytes).length
                f.ZipfileLengthBytes)).canCreate = fs.canCreate := rfl
          simp only [hcc, hc, hz, he, he2, hw, Bool.true_eq_false, if_false]

/-- Accepted non-negative `int64` lengths add up exactly. -/
theorem passesChecks_exact_sum (c : Codec) (f : Footer) (fso : Int)
    (hp : passesChecks c f fso) (hoff : 0 ≤ fso)
    (hexe : IsInt64 f.ExecutableLengthBytes) (hzip : IsInt64 f.ZipfileLengthBytes)
    (hexe0 : 0 ≤ f.ExecutableLengthBytes) (hzip0 : 0 ≤ f.ZipfileLengthBytes) :
    f.ExecutableLengthBytes + f.ZipfileLengthBytes = fso := by
  have h4 := hp.2.2.2
  unfold IsInt64 at hexe hzip
  unfold wrapInt64 at h4
  norm_num at hexe hzip h4
  omega

/-! ## The claims -/

/-- C3. `ReifyFooterAndDoInexpensiveChecks` checks leading magic, trailing magic,
checksum and size sum in this order and reports the first check that fails: a
leading magic that differs gives "footer magic number1 not found" whatever the
other fields hold; otherwise a trailing magic that differs gives "footer magic
number2 not found"; otherwise differing checksums give the checksum error, at the
first index where they differ; otherwise lengths whose `int64` sum is not
`footerStartOffset` give the consistency error; and whenever the error is not nil
the returned footer is nil. -/
theorem reify_reports_first_failed_check (c : Codec) (by_ : List Byte) (combinedPath : String)
    (footerStartOffset : Int) :
    ((c.FromBytes by_).MagicFooterNumber1.take c.MAGIC1.length ≠ c.MAGIC1 →
      ReifyFooterAndDoInexpensiveChecks c by_ combinedPath footerStartOffset =
        (none, some .magic1NotFound)) ∧
    ((c.FromBytes by_).MagicFooterNumber1.take c.MAGIC1.length = c.MAGIC1 →
      (c.FromBytes by_).MagicFooterNumber2.take c.MAGIC2.length ≠ c.MAGIC2 →
      ReifyFooterAndDoInexpensiveChecks c by_ combinedPath footerStartOffset =
        (none, some .magic2NotFound)) ∧
    ((c.FromBytes by_).MagicFooterNumber1.take c.MAGIC1.length = c.MAGIC1 →
      (c.FromBytes by_).MagicFooterNumber2.take c.MAGIC2.length = c.MAGIC2 →
      c.GetFooterChecksum (c.FromBytes by_) ≠ (c.FromBytes by_).FooterBlake2Checksum →
      ∃ i, i < 64 ∧
        (c.GetFooterChecksum (c.FromBytes by_)).val[i]? ≠
          (c.FromBytes by_).FooterBlake2Checksum.val[i]? ∧
        (∀ j, j < i → (c.GetFooterChecksum (c.FromBytes by_)).val[j]? =
          (c.FromBytes by_).FooterBlake2Checksum.val[j]?) ∧
        ReifyFooterAndDoInexpensiveChecks c by_ combinedPath footerStartOffset =
          (none, some (.footerChecksum combinedPath i footerStartOffset
            (c.GetFooterChecksum (c.FromBytes by_)) (c.FromBytes by_).FooterBlake2Checksum))) ∧
    ((c.FromBytes by_).MagicFooterNumber1.take c.MAGIC1.length = c.MAGIC1 →
      (c.FromBytes by_).MagicFooterNumber2.take c.MAGIC2.length = c.MAGIC2 →
      c.GetFooterChecksum (c.FromBytes by_) = (c.FromBytes by_).FooterBlake2Checksum →
      footerStartOffset ≠ wrapInt64 ((c.FromBytes by_).ZipfileLengthBytes
        + (c.FromBytes by_).ExecutableLengthBytes) →
      ReifyFooterAndDoInexpensiveChecks c by_ combinedPath footerStartOffset =
        (none, some (.sizeMismatch footerStartOffset (c.FromBytes by_).ZipfileLengthBytes
          (c.FromBytes by_).ExecutableLengthBytes
          (wrapInt64 ((c.FromBytes by_).ZipfileLengthBytes
            + (c.FromBytes by_).ExecutableLengthBytes))))) ∧
    ((ReifyFooterAndDoInexpensiveChecks c by_ combinedPath footerStartOffset).2 ≠ none →
      (ReifyFooterAndDoInexpensiveChecks c by_ combinedPath footerStartOffset).1 = none) := by
  refine ⟨fun h1 => reify_magic1_bad c by_ _ _ h1, fun h1 h2 => reify_magic2_bad c by_ _ _ h1 h2,
    ?_, fun h1 h2 h3 h4 => reify_size_bad c by_ _ _ h1 h2 h3 h4, ?_⟩
  · intro h1 h2 h3
    cases hd : firstDiff (c.GetFooterChecksum (c.FromBytes by_)).val
        (c.FromBytes by_).FooterBlake2Checksum.val 64 0 with
    | none => exact absurd ((firstDiff_digest_none_iff _ _).mp hd) h3
    | some i =>
      obtain ⟨hi, hne, hlt⟩ := firstDiff_digest_some _ _ i hd
      exact ⟨i, hi, hne, hlt, reify_checksum_bad c by_ _ _ i h1 h2 hd⟩
  · intro h
    rcases reify_cases c by_ combinedPath footerStartOffset with ⟨_, hr⟩ | ⟨_, e, hr⟩
    · rw [hr] at h
      exact absurd rfl h
    · rw [hr]

set_option maxRecDepth 1000000 in
/-- C3 at concrete blocks: one block per failing check, each reported as such. -/
theorem reify_reports_first_failed_check_witness :
    ReifyFooterAndDoInexpensiveChecks demoCodec badMagic1File "combined" 0 =
        (none, some .magic1NotFound) ∧
      ReifyFooterAndDoInexpensiveChecks demoCodec badMagic2File "combined" 0 =
        (none, some .magic2NotFound) ∧
      ReifyFooterAndDoInexpensiveChecks demoCodec badSizeFile "combined" 0 =
        (none, some (.sizeMismatch 0 2 3 5)) :=
  ⟨(reify_reports_first_failed_check demoCodec badMagic1File "combined" 0).1 (by decide),
    (reify_reports_first_failed_check demoCodec badMagic2File "combined" 0).2.1
      (by decide) (by decide),
    (reify_reports_first_failed_check demoCodec badSizeFile "combined" 0).2.2.2.1
      (by decide) (by decide) (by decide) (by decide)⟩

/-- C4. For an existing file of fewer than 256 bytes `ReadFooter` returns the
too-small error with `footerStartOffset = -1`, a nil footer and a nil handle; the
result is fixed by the path and the size alone, so it is the same whether or not
the file can be opened or read and whatever it holds. A file of 256 bytes or more
never gets the too-small error. -/
theorem readFooter_too_small (c : Codec) (fs : FileSys) (combinedPath : String)
    (bytes : List Byte) (hd : fs.data combinedPath = some bytes) :
    (bytes.length < LIBZIPFS_FOOTER_LEN →
      ReadFooter c fs combinedPath =
        ⟨-1, none, none, some (.tooSmall combinedPath bytes.length LIBZIPFS_FOOTER_LEN)⟩) ∧
    (bytes.length < LIBZIPFS_FOOTER_LEN →
      ∀ (fs2 : FileSys) (bytes2 : List Byte), fs2.data combinedPath = some bytes2 →
        bytes2.length = bytes.length → ReadFooter c fs2 combinedPath = ReadFooter c fs combinedPath) ∧
    (LIBZIPFS_FOOTER_LEN ≤ bytes.length →
      ∀ q sz n, (ReadFooter c fs combinedPath).err ≠ some (.tooSmall q sz n)) := by
  have small : ∀ (fs1 : FileSys) (b1 : List Byte), fs1.data combinedPath = some b1 →
      b1.length < LIBZIPFS_FOOTER_LEN →
      ReadFooter c fs1 combinedPath =
        ⟨-1, none, none, some (.tooSmall combinedPath b1.length LIBZIPFS_FOOTER_LEN)⟩ := by
    intro fs1 b1 h1 hlt
    simp only [LIBZIPFS_FOOTER_LEN] at hlt
    have hlt2 : (b1.length : Int) < 256 := by omega
    simp only [ReadFooter, h1, LIBZIPFS_FOOTER_LEN, Nat.cast_ofNat, hlt2, if_true]
  refine ⟨small fs bytes hd, ?_, ?_⟩
  · intro hlt fs2 bytes2 hd2 hlen
    rw [small fs bytes hd hlt, small fs2 bytes2 hd2 (by omega), hlen]
  · intro hlen q sz n
    simp only [LIBZIPFS_FOOTER_LEN] at hlen
    have hge : ¬ ((bytes.length : Int) < 256) := by omega
    cases ho : fs.canOpen combinedPath with
    | false => simp [ReadFooter, hd, LIBZIPFS_FOOTER_LEN, ho, hge]
    | true =>
      cases hr : fs.canRead combinedPath with
      | false => simp [ReadFooter, hd, LIBZIPFS_FOOTER_LEN, ho, hr, hge]
      | true =>
        by_cases hp : passesChecks c (c.FromBytes (footerBlock bytes))
            ((bytes.length : Int) - 256)
        · rw [readFooter_success c fs combinedPath bytes hd hlen ho hr hp]
          simp
        · obtain ⟨e, hre, he⟩ := readFooter_failure c fs combinedPath bytes hd hlen ho hr hp
          rw [he]
          have hk := reify_err_kind c (footerBlock bytes) combinedPath _ e (by rw [hre])
          rcases hk with h | h | ⟨i, x, y, h⟩ | ⟨a, b, d, h⟩ <;> simp [h]

set_option maxRecDepth 1000000 in
/-- C4 at a 255-byte file that can be neither opened nor read. -/
theorem readFooter_too_small_witness :
    lockedShortFs.data "combined" = some shortFile ∧
      ReadFooter demoCodec lockedShortFs "combined" =
        ⟨-1, none, none, some (.tooSmall "combined" 255 256)⟩ :=
  ⟨by decide,
    (readFooter_too_small demoCodec lockedShortFs "combined" shortFile (by decide)).1
      (by decide)⟩

/-- C5. When `ReadFooter` returns a nil error on a file of `s` bytes, then
`s ≥ 256`, the returned `footerStartOffset` is `s - 256`, the returned footer is
the decoding of the bytes `[s - 256, s)` of the file, and the `int64` sum of its
two lengths is `s - 256`. -/
theorem readFooter_success_result (c : Codec) (fs : FileSys) (combinedPath : String)
    (bytes : List Byte) (hd : fs.data combinedPath = some bytes)
    (h : (ReadFooter c fs combinedPath).err = none) :
    LIBZIPFS_FOOTER_LEN ≤ bytes.length ∧
    (ReadFooter c fs combinedPath).footerStartOffset = (bytes.length : Int) - LIBZIPFS_FOOTER_LEN ∧
    (ReadFooter c fs combinedPath).ft =
      some (c.FromBytes ((bytes.drop (bytes.length - LIBZIPFS_FOOTER_LEN)).take
        LIBZIPFS_FOOTER_LEN)) ∧
    ∀ f, (ReadFooter c fs combinedPath).ft = some f →
      wrapInt64 (f.ExecutableLengthBytes + f.ZipfileLengthBytes) =
        (bytes.length : Int) - LIBZIPFS_FOOTER_LEN := by
  obtain ⟨b, hb, hlen, -, -, hp, hres⟩ := readFooter_err_none c fs combinedPath h
  rw [hd] at hb
  cases hb
  rw [hres]
  refine ⟨hlen, ?_, ?_, ?_⟩
  · simp [LIBZIPFS_FOOTER_LEN]
  · simp [LIBZIPFS_FOOTER_LEN, footerBlock]
  · intro f hf
    simp only [Option.some.injEq] at hf
    subst hf
    rw [Int.add_comm]
    simpa [LIBZIPFS_FOOTER_LEN] using hp.2.2.2.symm

set_option maxRecDepth 1000000 in
/-- C5 at the 261-byte combined file: offset 5, lengths 3 and 2. -/
theorem readFooter_success_result_witness :
    (ReadFooter demoCodec (oneFile "combined" goodCombined) "combined").err = none ∧
      (ReadFooter demoCodec (oneFile "combined" goodCombined) "combined").footerStartOffset
        = 5 ∧
      (ReadFooter demoCodec (oneFile "combined" goodCombined) "combined").ft =
        some (demoFromBytes (goodCombined.drop 5)) :=
  ⟨by decide,
    (readFooter_success_result demoCodec (oneFile "combined" goodCombined) "combined"
      goodCombined (by decide) (by decide)).2.1,
    (readFooter_success_result demoCodec (oneFile "combined" goodCombined) "combined"
      goodCombined (by decide) (by decide)).2.2.1.trans (by decide)⟩

/-- C1 as stated fails: the 256-byte file `badMagic1File` can be stat'd, opened and
read, its footer decodes to a stored checksum equal to the recomputed one and to
lengths summing to `size - 256 = 0`, and yet `ReadFooter` fails, with "footer
magic number1 not found". -/
theorem readFooter_iff_without_magic_fails :
    ¬ ((ReadFooter demoCodec (oneFile "combined" badMagic1File) "combined").err = none ↔
        (LIBZIPFS_FOOTER_LEN ≤ badMagic1File.length ∧
          (demoCodec.FromBytes ((badMagic1File.drop
              (badMagic1File.length - LIBZIPFS_FOOTER_LEN)).take
                LIBZIPFS_FOOTER_LEN)).FooterBlake2Checksum =
            demoCodec.GetFooterChecksum (demoCodec.FromBytes ((badMagic1File.drop
              (badMagic1File.length - LIBZIPFS_FOOTER_LEN)).take LIBZIPFS_FOOTER_LEN)) ∧
          wrapInt64 ((demoCodec.FromBytes ((badMagic1File.drop
              (badMagic1File.length - LIBZIPFS_FOOTER_LEN)).take
                LIBZIPFS_FOOTER_LEN)).ExecutableLengthBytes +
            (demoCodec.FromBytes ((badMagic1File.drop
              (badMagic1File.length - LIBZIPFS_FOOTER_LEN)).take
                LIBZIPFS_FOOTER_LEN)).ZipfileLengthBytes) =
            (badMagic1File.length : Int) - LIBZIPFS_FOOTER_LEN)) ∧
      (ReadFooter demoCodec (oneFile "combined" badMagic1File) "combined").err =
        some .magic1NotFound := by
  set_option maxRecDepth 1000000 in decide

/-- C1, amended. For a file that can be stat'd, opened and read, `ReadFooter`
returns a nil error if and only if the file has at least 256 bytes and its
trailing 256 bytes decode to a footer whose leading magic starts with `MAGIC1`,
whose trailing magic starts with `MAGIC2`, whose stored checksum equals the
recomputed one, and whose two lengths have the `int64` sum `size - 256`. -/
theorem readFooter_succeeds_iff (c : Codec) (fs : FileSys) (combinedPath : String)
    (bytes : List Byte) (hd : fs.data combinedPath = some bytes)
    (ho : fs.canOpen combinedPath = true) (hr : fs.canRead combinedPath = true) :
    (ReadFooter c fs combinedPath).err = none ↔
      (LIBZIPFS_FOOTER_LEN ≤ bytes.length ∧
        (c.FromBytes ((bytes.drop (bytes.length - LIBZIPFS_FOOTER_LEN)).take
          LIBZIPFS_FOOTER_LEN)).MagicFooterNumber1.take c.MAGIC1.length = c.MAGIC1 ∧
        (c.FromBytes ((bytes.drop (bytes.length - LIBZIPFS_FOOTER_LEN)).take
          LIBZIPFS_FOOTER_LEN)).MagicFooterNumber2.take c.MAGIC2.length = c.MAGIC2 ∧
        (c.FromBytes ((bytes.drop (bytes.length - LIBZIPFS_FOOTER_LEN)).take
          LIBZIPFS_FOOTER_LEN)).FooterBlake2Checksum =
          c.GetFooterChecksum (c.FromBytes ((bytes.drop
            (bytes.length - LIBZIPFS_FOOTER_LEN)).take LIBZIPFS_FOOTER_LEN)) ∧
        wrapInt64 ((c.FromBytes ((bytes.drop (bytes.length - LIBZIPFS_FOOTER_LEN)).take
            LIBZIPFS_FOOTER_LEN)).ExecutableLengthBytes +
          (c.FromBytes ((bytes.drop (bytes.length - LIBZIPFS_FOOTER_LEN)).take
            LIBZIPFS_FOOTER_LEN)).ZipfileLengthBytes) =
          (bytes.length : Int) - LIBZIPFS_FOOTER_LEN) := by
  have hblock : (bytes.drop (bytes.length - LIBZIPFS_FOOTER_LEN)).take LIBZIPFS_FOOTER_LEN
      = footerBlock bytes := rfl
  rw [hblock]
  simp only [LIBZIPFS_FOOTER_LEN, Nat.cast_ofNat]
  constructor
  · intro h
    obtain ⟨b, hb, hlen, -, -, hp, -⟩ := readFooter_err_none c fs combinedPath h
    rw [hd] at hb
    cases hb
    obtain ⟨h1, h2, h3, h4⟩ := hp
    refine ⟨hlen, h1, h2, h3.symm, ?_⟩
    rw [Int.add_comm]
    exact h4.symm
  · rintro ⟨hlen, h1, h2, h3, h4⟩
    rw [readFooter_success c fs combinedPath bytes hd hlen ho hr
      ⟨h1, h2, h3.symm, by rw [Int.add_comm]; exact h4.symm⟩]

set_option maxRecDepth 1000000 in
/-- C1, amended, at the 261-byte combined file: all five conditions hold and
`ReadFooter` succeeds. -/
theorem readFooter_succeeds_iff_witness :
    (ReadFooter demoCodec (oneFile "combined" goodCombined) "combined").err = none :=
  (readFooter_succeeds_iff demoCodec (oneFile "combined" goodCombined) "combined"
    goodCombined (by decide) (by decide) (by decide)).mpr (by decide)

/-- C7. When `cfg.Split` is not true, `DoSplitOutExeAndZip` returns a nil footer
and a non-nil error, leaves the file system as it found it, and returns the same
pair on every file system: nothing is read, created or modified. -/
theorem doSplit_requires_split_flag (c : Codec) (cfg : CombinerConfig) (fs : FileSys)
    (h : cfg.Split ≠ true) :
    (∃ e, (DoSplitOutExeAndZip c cfg fs).2 = .ret (none, some e)) ∧
    (DoSplitOutExeAndZip c cfg fs).1 = fs ∧
    ∀ fs2 : FileSys, (DoSplitOutExeAndZip c cfg fs2).2 = (DoSplitOutExeAndZip c cfg fs).2 := by
  have key : ∀ fs1 : FileSys, DoSplitOutExeAndZip c cfg fs1 =
      (fs1, .ret (none, some (.splitFlagNotSet cfg))) := by
    intro fs1
    unfold DoSplitOutExeAndZip
    rw [if_pos h]
  refine ⟨⟨_, by rw [key fs]⟩, by rw [key fs], ?_⟩
  intro fs2
  rw [key fs, key fs2]

set_option maxRecDepth 1000000 in
/-- C7 at a config without the flag, on a file system holding a valid combined
file: the call fails and "exe" and "zip" are not created. -/
theorem doSplit_requires_split_flag_witness :
    (DoSplitOutExeAndZip demoCodec ⟨"combined", "exe", "zip", false⟩
        (oneFile "combined" goodCombined)).1 = oneFile "combined" goodCombined ∧
      ((DoSplitOutExeAndZip demoCodec ⟨"combined", "exe", "zip", false⟩
        (oneFile "combined" goodCombined)).1.data "exe") = none :=
  ⟨(doSplit_requires_split_flag demoCodec ⟨"combined", "exe", "zip", false⟩
      (oneFile "combined" goodCombined) (by decide)).2.1, by decide⟩

/-- C10 as stated fails: for `footerStartOffset = 0` the validator accepts a footer
whose executable length is `-1` and whose zip length is `1`; the lengths are
`int64` values and sum to the offset, but neither range bound holds. -/
theorem reify_accepts_negative_length :
    ReifyFooterAndDoInexpensiveChecks demoCodec negativeLengthFile "combined" 0 =
        (some (demoCodec.FromBytes negativeLengthFile), none) ∧
      (demoCodec.FromBytes negativeLengthFile).ExecutableLengthBytes = -1 ∧
      (demoCodec.FromBytes negativeLengthFile).ZipfileLengthBytes = 1 ∧
      ¬ (0 ≤ (demoCodec.FromBytes negativeLengthFile).ExecutableLengthBytes ∧
        (demoCodec.FromBytes negativeLengthFile).ExecutableLengthBytes ≤ 0 ∧
        0 ≤ (demoCodec.FromBytes negativeLengthFile).ZipfileLengthBytes ∧
        (demoCodec.FromBytes negativeLengthFile).ZipfileLengthBytes ≤ 0) := by
  set_option maxRecDepth 1000000 in decide

/-- C10, amended. Whenever the validator accepts a footer for a
`footerStartOffset ≥ 0` and both `int64` lengths of the footer are non-negative,
both lengths lie in `[0, footerStartOffset]` and their exact integer sum is
`footerStartOffset`. -/
theorem reify_accepted_lengths_in_range (c : Codec) (by_ : List Byte) (combinedPath : String)
    (footerStartOffset : Int) (f : Footer)
    (hacc : ReifyFooterAndDoInexpensiveChecks c by_ combinedPath footerStartOffset = (some f, none))
    (hoff : 0 ≤ footerStartOffset)
    (hexe : IsInt64 f.ExecutableLengthBytes) (hzip : IsInt64 f.ZipfileLengthBytes)
    (hexe0 : 0 ≤ f.ExecutableLengthBytes) (hzip0 : 0 ≤ f.ZipfileLengthBytes) :
    f.ExecutableLengthBytes ≤ footerStartOffset ∧ f.ZipfileLengthBytes ≤ footerStartOffset ∧
      f.ExecutableLengthBytes + f.ZipfileLengthBytes = footerStartOffset := by
  rcases reify_cases c by_ combinedPath footerStartOffset with ⟨hp, hr⟩ | ⟨_, e, hr⟩
  · rw [hr] at hacc
    simp only [Prod.mk.injEq, Option.some.injEq, and_true] at hacc
    subst hacc
    have h4 := hp.2.2.2
    unfold IsInt64 at hexe hzip
    unfold wrapInt64 at h4
    norm_num at hexe hzip h4
    omega
  · rw [hr] at hacc
    simp at hacc

set_option maxRecDepth 1000000 in
/-- C10, amended, at the footer of the 261-byte combined file. -/
theorem reify_accepted_lengths_in_range_witness :
    (demoFromBytes (goodCombined.drop 5)).ExecutableLengthBytes ≤ 5 ∧
      (demoFromBytes (goodCombined.drop 5)).ZipfileLengthBytes ≤ 5 ∧
      (demoFromBytes (goodCombined.drop 5)).ExecutableLengthBytes
        + (demoFromBytes (goodCombined.drop 5)).ZipfileLengthBytes = 5 :=
  reify_accepted_lengths_in_range demoCodec (goodCombined.drop 5) "combined" 5
    (demoFromBytes (goodCombined.drop 5)) (by decide) (by decide) (by decide) (by decide)
    (by decide) (by decide)

/-- C2. Let `ReadFooter` succeed on a file, let the decoder read the stored checksum
from the 64 bytes of the footer block that start at `off` (and nothing else from
them), and let `GetFooterChecksum` not depend on the stored checksum. Replacing
byte `i < 64` of that region by a different byte makes `ReadFooter` fail with the
footer-checksum error, reported at index `i`; it does not succeed. -/
theorem readFooter_rejects_changed_checksum_byte (c : Codec) (fs : FileSys)
    (combinedPath : String) (bytes : List Byte) (off i : Nat) (b : Byte)
    (hd : fs.data combinedPath = some bytes)
    (hok : (ReadFooter c fs combinedPath).err = none)
    (hregion : ChecksumStoredAt c off) (hindep : ChecksumIgnoresStored c)
    (hi : i < 64)
    (hb : bytes[bytes.length - LIBZIPFS_FOOTER_LEN + off + i]? ≠ some b) :
    ReadFooter c
        (fs.write combinedPath (bytes.set (bytes.length - LIBZIPFS_FOOTER_LEN + off + i) b))
        combinedPath =
      ⟨-1, none, none,
        some (.footerChecksum combinedPath i ((bytes.length : Int) - LIBZIPFS_FOOTER_LEN)
          (c.GetFooterChecksum (c.FromBytes ((bytes.drop
            (bytes.length - LIBZIPFS_FOOTER_LEN)).take LIBZIPFS_FOOTER_LEN)))
          ((c.FromBytes ((bytes.drop (bytes.length - LIBZIPFS_FOOTER_LEN)).take
            LIBZIPFS_FOOTER_LEN)).FooterBlake2Checksum.set i b))⟩ := by
  have hblock : (bytes.drop (bytes.length - LIBZIPFS_FOOTER_LEN)).take LIBZIPFS_FOOTER_LEN
      = footerBlock bytes := rfl
  rw [hblock]
  simp only [LIBZIPFS_FOOTER_LEN, Nat.cast_ofNat] at hb ⊢
  obtain ⟨b0, hb0, hlen, ho, hr, hp, -⟩ := readFooter_err_none c fs combinedPath hok
  rw [hd] at hb0
  cases hb0
  obtain ⟨hoff, hlayout⟩ := hregion
  obtain ⟨hget, hset⟩ := hlayout (footerBlock bytes) (footerBlock_length bytes hlen) i hi b
  obtain ⟨h1, h2, h3, h4⟩ := hp
  have hidx : bytes.length - 256 + off + i = bytes.length - 256 + (off + i) := by omega
  have hd2 : (fs.write combinedPath (bytes.set (bytes.length - 256 + off + i) b)).data
      combinedPath = some (bytes.set (bytes.length - 256 + off + i) b) := by
    simp [FileSys.write]
  have hlen2 : 256 ≤ (bytes.set (bytes.length - 256 + off + i) b).length := by
    rw [List.length_set]
    exact hlen
  have hblk : footerBlock (bytes.set (bytes.length - 256 + off + i) b) =
      (footerBlock bytes).set (off + i) b := by
    rw [hidx]
    exact footerBlock_set bytes (off + i) b
  have hstored : (c.FromBytes (footerBlock bytes)).FooterBlake2Checksum.val[i]? ≠ some b := by
    rw [hget]
    unfold footerBlock
    rw [List.getElem?_take, if_pos (by omega), List.getElem?_drop, ← hidx]
    exact hb
  have hchk : c.GetFooterChecksum (c.FromBytes ((footerBlock bytes).set (off + i) b)) =
      (c.FromBytes (footerBlock bytes)).FooterBlake2Checksum := by
    rw [hset, hindep]
    exact h3
  have hdiff : firstDiff (c.GetFooterChecksum (c.FromBytes ((footerBlock bytes).set
        (off + i) b))).val
      (c.FromBytes ((footerBlock bytes).set (off + i) b)).FooterBlake2Checksum.val 64 0
      = some i := by
    rw [hchk, hset]
    have := firstDiff_set (c.FromBytes (footerBlock bytes)).FooterBlake2Checksum.val 64 0 i b hi
      (by rw [(c.FromBytes (footerBlock bytes)).FooterBlake2Checksum.property]) hstored
    simpa [Blake2Sum.set] using this
  have hm1 : magicMatches (c.FromBytes ((footerBlock bytes).set (off + i) b)).MagicFooterNumber1
      c.MAGIC1 := by
    rw [hset]
    exact h1
  have hm2 : magicMatches (c.FromBytes ((footerBlock bytes).set (off + i) b)).MagicFooterNumber2
      c.MAGIC2 := by
    rw [hset]
    exact h2
  rw [readFooter_of_file c _ combinedPath _ hd2 hlen2 ho hr, hblk, List.length_set,
    reify_checksum_bad c _ combinedPath _ i hm1 hm2 hdiff, hchk, hset]
  simp only [h3]

set_option maxRecDepth 1000000 in
/-- C2 at the 261-byte combined file: its stored checksum occupies the bytes
37 to 100, and zeroing byte 40 (index 3 of the region) gives the checksum error
at index 3. -/
theorem readFooter_rejects_changed_checksum_byte_witness :
    (ReadFooter demoCodec (oneFile "combined" goodCombined) "combined").err = none ∧
      ∃ x y, ReadFooter demoCodec
          ((oneFile "combined" goodCombined).write "combined" (goodCombined.set 40 0))
          "combined" =
        ⟨-1, none, none, some (.footerChecksum "combined" 3 5 x y)⟩ :=
  ⟨by decide, _, _,
    readFooter_rejects_changed_checksum_byte demoCodec (oneFile "combined" goodCombined)
      "combined" goodCombined 32 3 0 (by decide) (by decide) demoCodec_checksumStoredAt
      demoCodec_checksumIgnoresStored (by decide) (by decide)⟩

/-- C6 as stated fails: `negativeCombined` is a valid combined file (`ReadFooter`
succeeds, executable length `-1`, zip length `6`, footer offset `5`), and with
`Split = true` the splitter writes an empty executable and a six-byte zip whose
last byte is the first byte of the footer; the two outputs concatenated are not
the file without its footer. -/
theorem doSplit_negative_length_reaches_footer :
    (ReadFooter demoCodec (oneFile "combined" negativeCombined) "combined").err = none ∧
      (DoSplitOutExeAndZip demoCodec splitCfg (oneFile "combined" negativeCombined)).1.data
        "exe" = some [] ∧
      (DoSplitOutExeAndZip demoCodec splitCfg (oneFile "combined" negativeCombined)).1.data
        "zip" = some [1, 2, 3, 4, 5, 10] ∧
      ((DoSplitOutExeAndZip demoCodec splitCfg (oneFile "combined" negativeCombined)).1.data
          "exe").getD [] ++
        ((DoSplitOutExeAndZip demoCodec splitCfg (oneFile "combined" negativeCombined)).1.data
          "zip").getD [] ≠
        negativeCombined.take (negativeCombined.length - LIBZIPFS_FOOTER_LEN) := by
  set_option maxRecDepth 1000000 in decide

/-- C6, amended. Let `ReadFooter` succeed on the file `bytes` at `OutputPath` with
footer `f`, let both lengths of `f` be non-negative `int64` values, let `Split` be
true, and let `ExecutablePath`, `ZipfilePath` and `OutputPath` be three different
paths at which the two outputs can be created. Then `DoSplitOutExeAndZip` returns
`f`, leaves at `ExecutablePath` the bytes `[0, exe)` of the file and at
`ZipfilePath` the bytes `[exe, exe + zip)`, read one after the other from one
handle; the two outputs concatenated are the file without its 256-byte footer,
the zip output is the view an offset mount with `(exe, zip)` has of the file, and
no other file changes. -/
theorem doSplit_writes_exe_then_zip (c : Codec) (cfg : CombinerConfig) (fs : FileSys)
    (bytes : List Byte) (f : Footer) (hs : cfg.Split = true)
    (hd : fs.data cfg.OutputPath = some bytes)
    (hok : (ReadFooter c fs cfg.OutputPath).err = none)
    (hf : (ReadFooter c fs cfg.OutputPath).ft = some f)
    (hE : cfg.ExecutablePath ≠ cfg.OutputPath) (hZ : cfg.ZipfilePath ≠ cfg.OutputPath)
    (hEZ : cfg.ExecutablePath ≠ cfg.ZipfilePath)
    (hcE : fs.canCreate cfg.ExecutablePath = true) (hcZ : fs.canCreate cfg.ZipfilePath = true)
    (hexe : IsInt64 f.ExecutableLengthBytes) (hzip : IsInt64 f.ZipfileLengthBytes)
    (hexe0 : 0 ≤ f.ExecutableLengthBytes) (hzip0 : 0 ≤ f.ZipfileLengthBytes) :
    (∃ err, (DoSplitOutExeAndZip c cfg fs).2 = .ret (some f, err)) ∧
    (DoSplitOutExeAndZip c cfg fs).1.data cfg.ExecutablePath =
      some (bytes.take f.ExecutableLengthBytes.toNat) ∧
    (DoSplitOutExeAndZip c cfg fs).1.data cfg.ZipfilePath =
      some ((bytes.drop f.ExecutableLengthBytes.toNat).take f.ZipfileLengthBytes.toNat) ∧
    bytes.take f.ExecutableLengthBytes.toNat ++
        (bytes.drop f.ExecutableLengthBytes.toNat).take f.ZipfileLengthBytes.toNat =
      bytes.take (bytes.length - LIBZIPFS_FOOTER_LEN) ∧
    (bytes.drop f.ExecutableLengthBytes.toNat).take f.ZipfileLengthBytes.toNat =
      offsetView bytes f.ExecutableLengthBytes.toNat f.ZipfileLengthBytes.toNat ∧
    ∀ q, q ≠ cfg.ExecutablePath → q ≠ cfg.ZipfilePath →
      (DoSplitOutExeAndZip c cfg fs).1.data q = fs.data q := by
  obtain ⟨b0, hb0, hlen, -, -, hp, hres⟩ := readFooter_err_none c fs cfg.OutputPath hok
  rw [hd] at hb0
  cases hb0
  rw [hres] at hf
  simp only [Option.some.injEq] at hf
  have hsum := passesChecks_exact_sum c _ _ hp (by omega) (hf ▸ hexe) (hf ▸ hzip)
    (hf ▸ hexe0) (hf ▸ hzip0)
  rw [hf] at hsum
  rw [doSplit_of_readFooter_ok c cfg fs bytes hs hd hok hE hZ, hf]
  have hl1 : (copyChunk bytes 0 f.ExecutableLengthBytes).length = f.ExecutableLengthBytes.toNat := by
    rw [copyChunk_length]
    omega
  have he1 : copyErr (copyChunk bytes 0 f.ExecutableLengthBytes).length
      f.ExecutableLengthBytes = none := by
    rw [copyErr_eq_none_iff, hl1]
    omega
  have hl2 : (copyChunk bytes (copyChunk bytes 0 f.ExecutableLengthBytes).length
      f.ZipfileLengthBytes).length = f.ZipfileLengthBytes.toNat := by
    rw [copyChunk_length, hl1]
    omega
  have he2 : copyErr (copyChunk bytes (copyChunk bytes 0 f.ExecutableLengthBytes).length
      f.ZipfileLengthBytes).length f.ZipfileLengthBytes = none := by
    rw [copyErr_eq_none_iff, hl2]
    omega
  have hres2 : splitResult c cfg fs bytes f =
      ((fs.write cfg.ExecutablePath (copyChunk bytes 0 f.ExecutableLengthBytes)).write
          cfg.ZipfilePath (copyChunk bytes (copyChunk bytes 0 f.ExecutableLengthBytes).length
            f.ZipfileLengthBytes),
        .ret (some f, c.VerifyExeZipChecksums f cfg
          ((fs.write cfg.ExecutablePath (copyChunk bytes 0 f.ExecutableLengthBytes)).write
            cfg.ZipfilePath (copyChunk bytes (copyChunk bytes 0 f.ExecutableLengthBytes).length
              f.ZipfileLengthBytes)))) := by
    simp only [splitResult, hcE, hcZ, he1, he2, Bool.true_eq_false, if_false]
  rw [hres2]
  have hc1 : copyChunk bytes 0 f.ExecutableLengthBytes =
      bytes.take f.ExecutableLengthBytes.toNat := by
    simp [copyChunk]
  have hc2 : copyChunk bytes (copyChunk bytes 0 f.ExecutableLengthBytes).length
      f.ZipfileLengthBytes =
      (bytes.drop f.ExecutableLengthBytes.toNat).take f.ZipfileLengthBytes.toNat := by
    rw [hl1]
    rfl
  refine ⟨⟨_, rfl⟩, ?_, ?_, ?_, ?_, ?_⟩
  · show ((fs.write _ _).write _ _).data cfg.ExecutablePath = _
    rw [write_data_ne _ _ _ _ hEZ, write_data_same, hc1]
  · show ((fs.write _ _).write _ _).data cfg.ZipfilePath = _
    rw [write_data_same, hc2]
  · have key : f.ExecutableLengthBytes.toNat + f.ZipfileLengthBytes.toNat =
        bytes.length - 256 := by omega
    rw [← List.take_add, key, LIBZIPFS_FOOTER_LEN]
  · simp only [offsetView, offsetRead, List.drop_zero, Nat.sub_zero, List.take_take,
      Nat.min_self]
  · intro q h1 h2
    show ((fs.write _ _).write _ _).data q = _
    rw [write_data_ne _ _ _ _ h2, write_data_ne _ _ _ _ h1]

set_option maxRecDepth 1000000 in
/-- C6, amended, at the 261-byte combined file: "exe" receives its first three
bytes and "zip" the next two. -/
theorem doSplit_writes_exe_then_zip_witness :
    (DoSplitOutExeAndZip demoCodec splitCfg (oneFile "combined" goodCombined)).1.data "exe" =
        some [1, 2, 3] ∧
      (DoSplitOutExeAndZip demoCodec splitCfg (oneFile "combined" goodCombined)).1.data "zip" =
        some [4, 5] :=
  ⟨(doSplit_writes_exe_then_zip demoCodec splitCfg (oneFile "combined" goodCombined)
      goodCombined (demoFromBytes (goodCombined.drop 5)) (by decide) (by decide) (by decide)
      (by decide) (by decide) (by decide) (by decide) (by decide) (by decide) (by decide)
      (by decide) (by decide) (by decide)).2.1.trans (by decide),
    (doSplit_writes_exe_then_zip demoCodec splitCfg (oneFile "combined" goodCombined)
      goodCombined (demoFromBytes (goodCombined.drop 5)) (by decide) (by decide) (by decide)
      (by decide) (by decide) (by decide) (by decide) (by decide) (by decide) (by decide)
      (by decide) (by decide) (by decide)).2.2.1.trans (by decide)⟩

/-- C8 as stated fails: with `Split = true`, a missing `OutputPath` makes
`DoSplitOutExeAndZip` panic (the error of `ReadFooter` is dropped and the nil
handle is used), after it has created the executable file; and on a valid
combined file a failing `os.Create` makes it panic through `panicOn`. Neither
failure is returned as an error value. -/
theorem doSplit_panics :
    (ReadFooter demoCodec emptyFs "combined").err = some (.statFailed "combined") ∧
      (DoSplitOutExeAndZip demoCodec splitCfg emptyFs).2 = .panic (some .invalidHandle) ∧
      (DoSplitOutExeAndZip demoCodec splitCfg emptyFs).1.data "exe" = some [] ∧
      (ReadFooter demoCodec readOnlyFs "combined").err = none ∧
      (DoSplitOutExeAndZip demoCodec splitCfg readOnlyFs).2 =
        .panic (some (.createFailed "exe")) := by
  set_option maxRecDepth 1000000 in decide

/-- C8, amended. Let `Split` be true, let `ReadFooter` succeed on the file `bytes`
at `OutputPath` with footer `f`, and let neither output path be `OutputPath`.
Then `DoSplitOutExeAndZip` returns to its caller exactly when both `os.Create`
calls succeed and both copies find the bytes they ask for (`exe ≤ size` and
`zip ≤ size - max exe 0`); otherwise it panics. When it returns, it returns `f`
and, as the error value, the result of `VerifyExeZipChecksums`. -/
theorem doSplit_returns_iff (c : Codec) (cfg : CombinerConfig) (fs : FileSys)
    (bytes : List Byte) (f : Footer) (hs : cfg.Split = true)
    (hd : fs.data cfg.OutputPath = some bytes)
    (hok : (ReadFooter c fs cfg.OutputPath).err = none)
    (hf : (ReadFooter c fs cfg.OutputPath).ft = some f)
    (hE : cfg.ExecutablePath ≠ cfg.OutputPath) (hZ : cfg.ZipfilePath ≠ cfg.OutputPath) :
    ((∃ v, (DoSplitOutExeAndZip c cfg fs).2 = .ret v) ↔
      (fs.canCreate cfg.ExecutablePath = true ∧ f.ExecutableLengthBytes ≤ bytes.length ∧
        fs.canCreate cfg.ZipfilePath = true ∧
        f.ZipfileLengthBytes ≤ (bytes.length : Int) - max f.ExecutableLengthBytes 0)) ∧
    ((∀ v, (DoSplitOutExeAndZip c cfg fs).2 ≠ .ret v) →
      ∃ e, (DoSplitOutExeAndZip c cfg fs).2 = .panic e) ∧
    (∀ v, (DoSplitOutExeAndZip c cfg fs).2 = .ret v →
      v = (some f, c.VerifyExeZipChecksums f cfg (DoSplitOutExeAndZip c cfg fs).1)) := by
  obtain ⟨b0, hb0, hlen, -, -, hp, hres⟩ := readFooter_err_none c fs cfg.OutputPath hok
  rw [hd] at hb0
  cases hb0
  rw [hres] at hf
  simp only [Option.some.injEq] at hf
  rw [doSplit_of_readFooter_ok c cfg fs bytes hs hd hok hE hZ, hf]
  have h1 : copyErr (copyChunk bytes 0 f.ExecutableLengthBytes).length
      f.ExecutableLengthBytes = none ↔ f.ExecutableLengthBytes ≤ bytes.length := by
    rw [copyErr_eq_none_iff, copyChunk_length]
    omega
  have h2 : f.ExecutableLengthBytes ≤ bytes.length →
      (copyErr (copyChunk bytes (copyChunk bytes 0 f.ExecutableLengthBytes).length
        f.ZipfileLengthBytes).length f.ZipfileLengthBytes = none ↔
      f.ZipfileLengthBytes ≤ (bytes.length : Int) - max f.ExecutableLengthBytes 0) := by
    intro hle
    rw [copyErr_eq_none_iff, copyChunk_length, copyChunk_length]
    omega
  unfold splitResult
  simp only
  cases hcE : fs.canCreate cfg.ExecutablePath with
  | false => simp
  | true =>
    simp only [Bool.true_eq_false, if_false, true_and]
    cases he1 : copyErr (copyChunk bytes 0 f.ExecutableLengthBytes).length
        f.ExecutableLengthBytes with
    | some e1 =>
      have hn : ¬ f.ExecutableLengthBytes ≤ bytes.length := by
        intro hle
        rw [h1.mpr hle] at he1
        cases he1
      simp [hn]
    | none =>
      have hle := h1.mp he1
      simp only [hle, true_and]
      cases hcZ : fs.canCreate cfg.ZipfilePath with
      | false => simp
      | true =>
        simp only [Bool.true_eq_false, if_false, true_and]
        cases he2 : copyErr (copyChunk bytes (copyChunk bytes 0
            f.ExecutableLengthBytes).length f.ZipfileLengthBytes).length
            f.ZipfileLengthBytes with
        | some e2 =>
          have hn : ¬ f.ZipfileLengthBytes ≤
              (bytes.length : Int) - max f.ExecutableLengthBytes 0 := by
            intro hz
            rw [(h2 hle).mpr hz] at he2
            cases he2
          simp [hn]
        | none =>
          have hz := (h2 hle).mp he2
          simp [hz]

set_option maxRecDepth 1000000 in
/-- C8, amended, at the 261-byte combined file with creatable outputs: the call
returns. -/
theorem doSplit_returns_iff_witness :
    ∃ v, (DoSplitOutExeAndZip demoCodec splitCfg (oneFile "combined" goodCombined)).2 =
      .ret v :=
  (doSplit_returns_iff demoCodec splitCfg (oneFile "combined" goodCombined) goodCombined
    (demoFromBytes (goodCombined.drop 5)) (by decide) (by decide) (by decide) (by decide)
    (by decide) (by decide)).1.mpr (by decide)

/-- C9. Let `Split` be true, let `ReadFooter` succeed on the file at `OutputPath`
and let neither output path be `OutputPath`. Running `DoSplitOutExeAndZip` again
on the file system the first run left behind leaves every file, in particular
those at `ExecutablePath` and `ZipfilePath`, as it was after the first run, and
ends the same way, returning the same footer. -/
theorem doSplit_idempotent (c : Codec) (cfg : CombinerConfig) (fs : FileSys)
    (bytes : List Byte) (hs : cfg.Split = true)
    (hd : fs.data cfg.OutputPath = some bytes)
    (hok : (ReadFooter c fs cfg.OutputPath).err = none)
    (hE : cfg.ExecutablePath ≠ cfg.OutputPath) (hZ : cfg.ZipfilePath ≠ cfg.OutputPath) :
    (DoSplitOutExeAndZip c cfg (DoSplitOutExeAndZip c cfg fs).1).1 =
        (DoSplitOutExeAndZip c cfg fs).1 ∧
    (DoSplitOutExeAndZip c cfg (DoSplitOutExeAndZip c cfg fs).1).2 =
        (DoSplitOutExeAndZip c cfg fs).2 := by
  have hfirst := doSplit_of_readFooter_ok c cfg fs bytes hs hd hok hE hZ
  obtain ⟨ho, hr, -, hdata⟩ :=
    splitResult_flags c cfg fs bytes (c.FromBytes (footerBlock bytes))
  have hd2 : (splitResult c cfg fs bytes (c.FromBytes (footerBlock bytes))).1.data
      cfg.OutputPath = some bytes := by
    rw [hdata cfg.OutputPath (Ne.symm hE) (Ne.symm hZ)]
    exact hd
  have hok2 : (ReadFooter c (splitResult c cfg fs bytes (c.FromBytes (footerBlock bytes))).1
      cfg.OutputPath).err = none := by
    rw [readFooter_congr c fs _ cfg.OutputPath (by rw [hd2, hd]) (by rw [ho]) (by rw [hr])]
    exact hok
  have hsecond := doSplit_of_readFooter_ok c cfg _ bytes hs hd2 hok2 hE hZ
  rw [hfirst, hsecond, splitResult_idem]
  exact ⟨rfl, rfl⟩

set_option maxRecDepth 1000000 in
/-- C9 at the 261-byte combined file: after the second run "exe" and "zip" hold
what the first run wrote. -/
theorem doSplit_idempotent_witness :
    (DoSplitOutExeAndZip demoCodec splitCfg
        (DoSplitOutExeAndZip demoCodec splitCfg (oneFile "combined" goodCombined)).1).1.data
        "exe" = some [1, 2, 3] ∧
      (DoSplitOutExeAndZip demoCodec splitCfg
        (DoSplitOutExeAndZip demoCodec splitCfg (oneFile "combined" goodCombined)).1).1.data
        "zip" = some [4, 5] ∧
      (DoSplitOutExeAndZip demoCodec splitCfg
        (DoSplitOutExeAndZip demoCodec splitCfg (oneFile "combined" goodCombined)).1).2 =
        .ret (some (demoFromBytes (goodCombined.drop 5)), none) :=
  ⟨(congrArg (fun s => s.data "exe")
      (doSplit_idempotent demoCodec splitCfg (oneFile "combined" goodCombined) goodCombined
        (by decide) (by decide) (by decide) (by decide) (by decide)).1).trans (by decide),
    (congrArg (fun s => s.data "zip")
      (doSplit_idempotent demoCodec splitCfg (oneFile "combined" goodCombined) goodCombined
        (by decide) (by decide) (by decide) (by decide) (by decide)).1).trans (by decide),
    (doSplit_idempotent demoCodec splitCfg (oneFile "combined" goodCombined) goodCombined
      (by decide) (by decide) (by decide) (by decide) (by decide)).2.trans (by decide)⟩

end Libzipfs
